import Mathlib

/-!
# Synfig `Layer` (synfig-core/trunk/src/synfig/layer.cpp)

A shallow embedding of the layer core: the type registry (`Layer::book`,
`Layer::create`), the dynamic parameter bindings
(`connect_dynamic_param`, `disconnect_dynamic_param`), the clone
operations (`simple_clone`, `clone`), the depth and time point queries
(`get_z_depth`, `get_times_vfunc`), the parameter list (`set_param_list`),
the group functions, `get_full_bounding_rect` and the destructor.

Conventions of the embedding.

* Heap objects (value nodes, canvases) are named by a natural number, their
  address; a handle is an `Option` of such a name and `none` is the empty
  handle.
* A function that may dereference an empty handle returns an `Option`;
  `none` stands for that fault.
* `std::map<String, V>` is a list of entries with strictly increasing keys.
* The parent/child relation of `Node` is seen from the layer: `children`
  holds the nodes whose parent set contains this layer.
* Signals and calls into collaborators are appended to the layer's `log`,
  and so are the calls of the virtual `set_param` a layer receives.
-/

namespace Synfig

/-! ## `std::map<String, V>` -/

/-- Key order of a `std::map<String, V>`: strings compare lexicographically,
character by character. -/
def keyLt (a b : String) : Prop := a.data < b.data

instance keyLtDecidable (a b : String) : Decidable (keyLt a b) :=
  inferInstanceAs (Decidable (a.data < b.data))

/-- Representation invariant of a `std::map`: the keys are strictly increasing. -/
def KeysSorted {V : Type} (l : List (String × V)) : Prop :=
  (l.map Prod.fst).Pairwise keyLt

/-- Lookup of a key in the entry list (`std::map::find`). -/
def rawFind {V : Type} (k : String) : List (String × V) → Option V
  | [] => none
  | (k', v) :: rest => if k' = k then some v else rawFind k rest

/-- Assignment `m[k] = v` on the entry list: replaces the entry of `k` or
inserts a new entry at its place in key order. -/
def rawInsert {V : Type} (k : String) (v : V) : List (String × V) → List (String × V)
  | [] => [(k, v)]
  | (k', v') :: rest =>
    if keyLt k k' then (k, v) :: (k', v') :: rest
    else if k = k' then (k, v) :: rest
    else (k', v') :: rawInsert k v rest

/-- Removal of a key from the entry list (`std::map::erase(key)`). -/
def rawErase {V : Type} (k : String) (l : List (String × V)) : List (String × V) :=
  l.filter (fun e => e.1 != k)

theorem rawFind_rawInsert {V : Type} (k : String) (v : V) (q : String)
    (l : List (String × V)) :
    rawFind q (rawInsert k v l) = if q = k then some v else rawFind q l := by
  induction l with
  | nil =>
    by_cases h : q = k
    · simp [rawInsert, rawFind, h]
    · have h' : ¬ k = q := fun e => h e.symm
      simp [rawInsert, rawFind, h, h']
  | cons e rest ih =>
    obtain ⟨k', v'⟩ := e
    by_cases h1 : keyLt k k'
    · by_cases h : q = k
      · simp [rawInsert, rawFind, h1, h]
      · have h' : ¬ k = q := fun e => h e.symm
        simp [rawInsert, rawFind, h1, h, h']
    · by_cases h2 : k = k'
      · subst h2
        by_cases h : q = k
        · simp [rawInsert, rawFind, h1, h]
        · have h' : ¬ k = q := fun e => h e.symm
          simp [rawInsert, rawFind, h1, h, h']
      · by_cases h : q = k
        · subst h
          have h2' : ¬ k' = q := fun e => h2 e.symm
          simp [rawInsert, rawFind, h1, h2, h2', ih]
        · simp [rawInsert, rawFind, h1, h2, h, ih]

theorem rawFind_rawErase {V : Type} (k q : String) (l : List (String × V)) :
    rawFind q (rawErase k l) = if q = k then none else rawFind q l := by
  induction l with
  | nil => simp [rawErase, rawFind]
  | cons e rest ih =>
    obtain ⟨k', v'⟩ := e
    unfold rawErase at ih ⊢
    by_cases h : q = k
    · subst h
      rw [if_pos rfl] at ih
      by_cases h1 : k' = q
      · simp [List.filter_cons, h1, ih]
      · simp [List.filter_cons, rawFind, h1, ih]
    · rw [if_neg h] at ih
      by_cases h1 : k' = k
      · subst h1
        have h' : ¬ k' = q := fun e => h e.symm
        simp [List.filter_cons, rawFind, h, h', ih]
      · simp [List.filter_cons, rawFind, h1, h, ih]

theorem keys_rawInsert {V : Type} (k : String) (v : V) (l : List (String × V)) (x : String)
    (hx : x ∈ (rawInsert k v l).map Prod.fst) : x = k ∨ x ∈ l.map Prod.fst := by
  induction l with
  | nil => simpa [rawInsert] using hx
  | cons e rest ih =>
    obtain ⟨k', v'⟩ := e
    by_cases h1 : keyLt k k'
    · simp only [rawInsert, h1, if_true, List.map_cons, List.mem_cons] at hx ⊢
      exact hx
    · by_cases h2 : k = k'
      · subst h2
        simp only [rawInsert, h1, if_true, if_false, List.map_cons, List.mem_cons] at hx ⊢
        rcases hx with hx | hx
        · exact Or.inl hx
        · exact Or.inr (Or.inr hx)
      · simp only [rawInsert, h1, h2, if_false, List.map_cons, List.mem_cons] at hx ⊢
        rcases hx with hx | hx
        · exact Or.inr (Or.inl hx)
        · rcases ih hx with h | h
          · exact Or.inl h
          · exact Or.inr (Or.inr h)

theorem keyLt_trans {a b c : String} (h1 : keyLt a b) (h2 : keyLt b c) : keyLt a c := by
  unfold keyLt at *
  exact lt_trans h1 h2

theorem keyLt_of_not {a b : String} (h1 : ¬ keyLt a b) (h2 : a ≠ b) : keyLt b a := by
  unfold keyLt at *
  rcases lt_trichotomy a.data b.data with h | h | h
  · exact absurd h h1
  · exact absurd (String.ext h) h2
  · exact h

theorem keyLt_irrefl (a : String) : ¬ keyLt a a := by
  unfold keyLt
  exact lt_irrefl _

theorem sorted_rawInsert {V : Type} (k : String) (v : V) (l : List (String × V))
    (h : KeysSorted l) : KeysSorted (rawInsert k v l) := by
  induction l with
  | nil => simp [rawInsert, KeysSorted]
  | cons e rest ih =>
    obtain ⟨k', v'⟩ := e
    have hs : (∀ x ∈ rest.map Prod.fst, keyLt k' x) ∧ KeysSorted rest := by
      simpa [KeysSorted, List.pairwise_cons] using h
    by_cases h1 : keyLt k k'
    · have : KeysSorted ((k, v) :: (k', v') :: rest) := by
        unfold KeysSorted
        rw [List.map_cons, List.pairwise_cons]
        refine ⟨?_, h⟩
        intro x hx
        rw [List.map_cons, List.mem_cons] at hx
        rcases hx with hx | hx
        · rw [hx]; exact h1
        · exact keyLt_trans h1 (hs.1 x hx)
      simpa [rawInsert, h1] using this
    · by_cases h2 : k = k'
      · subst h2
        have : KeysSorted ((k, v) :: rest) := by
          unfold KeysSorted
          rw [List.map_cons, List.pairwise_cons]
          exact ⟨hs.1, hs.2⟩
        simpa [rawInsert, h1] using this
      · have : KeysSorted ((k', v') :: rawInsert k v rest) := by
          unfold KeysSorted
          rw [List.map_cons, List.pairwise_cons]
          refine ⟨?_, ih hs.2⟩
          intro x hx
          rcases keys_rawInsert k v rest x hx with hx | hx
          · rw [hx]; exact keyLt_of_not h1 h2
          · exact hs.1 x hx
        simpa [rawInsert, h1, h2] using this

theorem sorted_rawErase {V : Type} (k : String) (l : List (String × V))
    (h : KeysSorted l) : KeysSorted (rawErase k l) := by
  unfold KeysSorted rawErase at *
  exact List.Pairwise.sublist (List.Sublist.map _ (List.filter_sublist l)) h

/-- In a sorted entry list the head key does not occur in the tail. -/
theorem rawFind_tail_none {V : Type} (k : String) (v : V) (rest : List (String × V))
    (h : KeysSorted ((k, v) :: rest)) : rawFind k rest = none := by
  have hs : ∀ x ∈ rest.map Prod.fst, keyLt k x := by
    have := h
    simp only [KeysSorted, List.map_cons, List.pairwise_cons] at this
    exact this.1
  clear h
  induction rest with
  | nil => rfl
  | cons e rest ih =>
    obtain ⟨k', v'⟩ := e
    have hk : keyLt k k' := hs k' (by simp)
    have hne : ¬ k' = k := fun e => keyLt_irrefl k (by rw [e] at hk; exact hk)
    simp only [rawFind, hne, if_false]
    exact ih (fun x hx => hs x (by simp only [List.map_cons, List.mem_cons]; exact Or.inr (by simpa using hx)))

/-- In a sorted entry list, membership of an entry is the same as being found. -/
theorem mem_iff_rawFind {V : Type} (l : List (String × V)) (h : KeysSorted l)
    (k : String) (v : V) : (k, v) ∈ l ↔ rawFind k l = some v := by
  induction l with
  | nil => simp [rawFind]
  | cons e rest ih =>
    obtain ⟨k', v'⟩ := e
    have hs : KeysSorted rest := by
      have := h
      simp only [KeysSorted, List.map_cons, List.pairwise_cons] at this
      exact this.2
    by_cases hk : k' = k
    · subst hk
      have hnone := rawFind_tail_none k' v' rest h
      constructor
      · intro hm
        rcases List.mem_cons.1 hm with hm | hm
        · cases hm
          simp [rawFind]
        · have := (ih hs).1 hm
          rw [hnone] at this
          cases this
      · intro hf
        simp only [rawFind, if_true, Option.some.injEq] at hf
        subst hf
        exact List.mem_cons_self _ _
    · constructor
      · intro hm
        rcases List.mem_cons.1 hm with hm | hm
        · cases hm
          exact absurd rfl hk
        · simp only [rawFind, hk, if_false]
          exact (ih hs).1 hm
      · intro hf
        simp only [rawFind, hk, if_false] at hf
        exact List.mem_cons_of_mem _ ((ih hs).2 hf)

/-- A `std::map<String, V>`: entries in strictly increasing key order. -/
structure StdMap (V : Type) where
  entries : List (String × V)
  sorted : KeysSorted entries

namespace StdMap

theorem ext_entries {V : Type} {a b : StdMap V} (h : a.entries = b.entries) : a = b := by
  cases a; cases b; cases h; rfl

instance instDecEq {V : Type} [DecidableEq V] : DecidableEq (StdMap V) := fun a b =>
  decidable_of_iff (a.entries = b.entries) ⟨ext_entries, fun h => by rw [h]⟩

/-- The empty map. -/
def empty {V : Type} : StdMap V := ⟨[], List.Pairwise.nil⟩

/-- The call `m.find(k)`: the mapped value, `none` for `end()`. -/
def find {V : Type} (m : StdMap V) (k : String) : Option V := rawFind k m.entries

/-- The call `m.count(k)`: 1 when the key is present, else 0. -/
def count {V : Type} (m : StdMap V) (k : String) : Nat :=
  match m.find k with
  | some _ => 1
  | none => 0

/-- The assignment `m[k] = v`. -/
def insert {V : Type} (m : StdMap V) (k : String) (v : V) : StdMap V :=
  ⟨rawInsert k v m.entries, sorted_rawInsert k v m.entries m.sorted⟩

/-- The call `m.erase(k)`. -/
def erase {V : Type} (m : StdMap V) (k : String) : StdMap V :=
  ⟨rawErase k m.entries, sorted_rawErase k m.entries m.sorted⟩

/-- Reading `m[k]`: when the key is absent `operator[]` first inserts a
default-constructed value `d` under it; the map after the access and the
value read are returned. -/
def index {V : Type} (m : StdMap V) (k : String) (d : V) : StdMap V × V :=
  match m.find k with
  | some v => (m, v)
  | none => (m.insert k d, d)

theorem find_insert {V : Type} (m : StdMap V) (k : String) (v : V) (q : String) :
    (m.insert k v).find q = if q = k then some v else m.find q :=
  rawFind_rawInsert k v q m.entries

theorem find_erase {V : Type} (m : StdMap V) (k q : String) :
    (m.erase k).find q = if q = k then none else m.find q :=
  rawFind_rawErase k q m.entries

theorem mem_iff_find {V : Type} (m : StdMap V) (k : String) (v : V) :
    (k, v) ∈ m.entries ↔ m.find k = some v :=
  mem_iff_rawFind m.entries m.sorted k v

end StdMap

/-! ## Values, value nodes and canvases -/

/-- A `synfig::GUID`, the identity of a node: a 128-bit value read as a number. -/
abbrev GUID := Nat

/-- Modelled from the spec: `GUID::operator^` (guid.h is not among the
sources). The spec calls it "a reversible combine, not a hash" of the
identity and the derivation token; it is the bitwise exclusive or. -/
def GUID.combine (a b : GUID) : GUID := a ^^^ b

/-- A `synfig::Time`; the carrier is abstract and only compared. -/
abbrev Time := Int

/-- Modelled from the spec: `Time::end()` (time.h is not among the sources),
the "end of time" a fresh layer is dirty at. -/
def Time.end_ : Time := 32767 * 512

/-- The type tags of `ValueBase` this file distinguishes. -/
inductive ValueType
  | TYPE_NIL
  | TYPE_REAL
  | TYPE_STRING
  | TYPE_CANVAS
  deriving DecidableEq, Repr

/-- A `ValueBase`: a typed value. A canvas value holds a canvas handle, which
may be empty. Real numbers are carried by integers; they are only copied. -/
inductive ValueBase
  | nil
  | real (x : Int)
  | string (s : String)
  | canvas (h : Option Nat)
  deriving DecidableEq, Repr

/-- The call `ValueBase::get_type()`. -/
def ValueBase.get_type : ValueBase → ValueType
  | .nil => .TYPE_NIL
  | .real _ => .TYPE_REAL
  | .string _ => .TYPE_STRING
  | .canvas _ => .TYPE_CANVAS

/-- The call `value.get(Canvas::Handle())`: the canvas handle held by the
value, the empty handle when the value holds none. -/
def ValueBase.get_canvas : ValueBase → Option Nat
  | .canvas h => h
  | _ => none

/-- The call `value.get(z_depth_)`: the number held by a real value. -/
def ValueBase.get_real : ValueBase → Int
  | .real x => x
  | _ => 0

/-- Modelled from the spec: the animation node and scene boundaries (spec
section 6), whose classes `ValueNode`, `ValueNode_Const` and `Canvas` are not
among the sources. Nodes and canvases are named by their address. -/
structure Env where
  /-- The call `ValueNode::is_exported()`. -/
  is_exported : Nat → Bool
  /-- The call `ValueNode::get_type()`. -/
  get_type : Nat → ValueType
  /-- The call `(*node)(t)`: the value of the node at a time. -/
  value_at : Nat → Time → ValueBase
  /-- The call `ValueNode::get_times()`. -/
  get_times : Nat → List Time
  /-- The call `node->clone(deriv_guid)`: the node it returns. -/
  node_clone : Nat → GUID → Nat
  /-- The call `ValueNode_Const::create(value)`: the node it returns. -/
  const_create : ValueBase → Nat
  /-- The call `Canvas::is_inline()`. -/
  is_inline : Nat → Bool
  /-- The call `canvas->clone(deriv_guid)`: the canvas it returns. -/
  canvas_clone : Nat → GUID → Nat

/-- What a layer does to the outside: signals it emits and calls it makes on
its value nodes, in the order they happen; and the calls of `set_param` it
receives, with their arguments. -/
inductive Event
  | signal_changed
  | signal_status_changed
  | signal_description_changed
  | signal_added_to_group (g : String)
  | signal_removed_from_group (g : String)
  | add_child (n : Nat)
  | remove_child (n : Nat)
  | set_parent_canvas (n : Nat) (c : Option Nat)
  | parent_death_disconnect
  | begin_delete
  | set_param (param : String) (value : ValueBase)
  deriving DecidableEq, Repr

/-! ## The layer -/

/-- The type `Layer::DynamicParamList`: parameter name to value node handle. -/
abbrev DynamicParamList := StdMap (Option Nat)

/-- The type `Layer::ParamList`: parameter name to value. -/
abbrev ParamList := StdMap ValueBase

/-- The state of a `synfig::Layer`.

The members layer.cpp names are `active_`, `z_depth_`, `dirty_time_`,
`description_`, `group_`, `canvas_`, `parent_death_connect_` (whether the
connection to the canvas's deletion signal is live) and
`dynamic_param_list_`. The other fields stand for what lies outside
layer.cpp: `name__` is what the virtual `get_name()` reports, `placeholder`
tells a `Layer_Mime`, `guid_` is the identity `get_guid()` reports, `params`
holds the static parameters the concrete layer type adds to `z_depth`,
`children` are the nodes whose parent set contains this layer
(`Node::add_child`), and `log` lists the signals, the outside calls and the
calls of `set_param` received so far. -/
structure Layer where
  name__ : String
  placeholder : Bool
  guid_ : GUID
  active_ : Bool
  z_depth_ : Int
  dirty_time_ : Time
  description_ : String
  group_ : String
  canvas_ : Option Nat
  parent_death_connect_ : Bool
  dynamic_param_list_ : DynamicParamList
  params : ParamList
  children : List Nat
  log : List Event
  deriving DecidableEq

namespace Layer

/-- The constructor `Layer::Layer()`: active, depth 0, dirty at the end of
time, every other member default-constructed. -/
def new : Layer :=
  { name__ := "", placeholder := false, guid_ := 0, active_ := true, z_depth_ := 0,
    dirty_time_ := Time.end_, description_ := "", group_ := "", canvas_ := none,
    parent_death_connect_ := false, dynamic_param_list_ := StdMap.empty,
    params := StdMap.empty, children := [], log := [] }

/-- Modelled from the spec: `Layer_Mime(name)` (layer_mime.h is not among the
sources), the placeholder "carrying the unresolved name": a fresh layer whose
reported type name is `name`. -/
def Layer_Mime (name : String) : Layer :=
  { new with name__ := name, placeholder := true }

def get_name (L : Layer) : String := L.name__

def get_description (L : Layer) : String := L.description_

def active (L : Layer) : Bool := L.active_

def get_canvas (L : Layer) : Option Nat := L.canvas_

def get_guid (L : Layer) : GUID := L.guid_

def set_guid (L : Layer) (x : GUID) : Layer := { L with guid_ := x }

def get_group (L : Layer) : String := L.group_

def dynamic_param_list (L : Layer) : DynamicParamList := L.dynamic_param_list_

/-- Modelled from the spec: `Node::add_child` (node.cpp is not among the
sources) inserts this layer into the parent set of the node, "only one
propagation edge per distinct node per layer". -/
def add_child (L : Layer) (x : Nat) : Layer :=
  { L with children := if x ∈ L.children then L.children else L.children ++ [x],
           log := L.log ++ [Event.add_child x] }

/-- Modelled from the spec: `Node::remove_child` (node.cpp is not among the
sources) erases this layer from the parent set of the node. -/
def remove_child (L : Layer) (x : Nat) : Layer :=
  { L with children := L.children.filter (fun y => y != x),
           log := L.log ++ [Event.remove_child x] }

/-- The call `value_node->set_parent_canvas(x)` made by this layer. -/
def set_parent_canvas (L : Layer) (value_node : Nat) (x : Option Nat) : Layer :=
  { L with log := L.log ++ [Event.set_parent_canvas value_node x] }

/-- The call `Node::on_changed()`: the change notification. -/
def node_on_changed (L : Layer) : Layer :=
  { L with log := L.log ++ [Event.signal_changed] }

/-- The method `Layer::on_changed()`. -/
def on_changed (L : Layer) : Layer :=
  node_on_changed { L with dirty_time_ := Time.end_ }

/-- The call `changed()`, which runs `on_changed()`. -/
def changed (L : Layer) : Layer := L.on_changed

/-- The method `Layer::set_active`. -/
def set_active (L : Layer) (x : Bool) : Layer :=
  if L.active_ != x then
    let L1 := node_on_changed { L with active_ := x }
    { L1 with log := L1.log ++ [Event.signal_status_changed] }
  else L

/-- The method `Layer::set_description`. -/
def set_description (L : Layer) (x : String) : Layer :=
  if L.description_ != x then
    { L with description_ := x, log := L.log ++ [Event.signal_description_changed] }
  else L

/-- The method `Layer::connect_dynamic_param`. The result is `none` when the
call dereferences an empty handle (`add_child(value_node.get())` with an
empty `value_node`). -/
def connect_dynamic_param (E : Env) (L : Layer) (param : String) (value_node : Option Nat) :
    Option (Bool × Layer) :=
  let acc := L.dynamic_param_list_.index param none
  let previous := acc.2
  let L1 := { L with dynamic_param_list_ := acc.1 }
  if previous = value_node then some (true, L1)
  else
    let L2 := { L1 with dynamic_param_list_ := L1.dynamic_param_list_.insert param value_node }
    let L3 := match previous with
      | some p => L2.remove_child p
      | none => L2
    match value_node with
    | none => none
    | some n =>
      let L4 := L3.add_child n
      let L5 :=
        if !E.is_exported n && L4.get_canvas.isSome then L4.set_parent_canvas n L4.get_canvas
        else L4
      some (true, L5.changed)

/-- The method `Layer::disconnect_dynamic_param`. -/
def disconnect_dynamic_param (L : Layer) (param : String) : Bool × Layer :=
  let acc := L.dynamic_param_list_.index param none
  let L1 := { L with dynamic_param_list_ := acc.1 }
  match acc.2 with
  | some previous =>
    let L2 := { L1 with dynamic_param_list_ := L1.dynamic_param_list_.erase param }
    let found := L2.dynamic_param_list.entries.any (fun e => e.2 = some previous)
    let L3 := if found then L2 else L2.remove_child previous
    (true, L3.changed)
  | none => (true, L1)

/-- The method `Layer::set_param` of the base class. The method is virtual
and the overrides of the concrete types are not among the sources: what a
concrete type does with a value cannot be told here, so the call itself is
recorded, with its arguments, in the log of the layer that receives it. -/
def set_param (L : Layer) (param : String) (value : ValueBase) : Bool × Layer :=
  let L0 := { L with log := L.log ++ [Event.set_param param value] }
  if param = "z_depth" ∧ value.get_type = ValueType.TYPE_REAL then
    (true, { L0 with z_depth_ := value.get_real })
  else (false, L0)

/-- The method `Layer::set_param_list`. -/
def set_param_list (L : Layer) (list : ParamList) : Bool × Layer :=
  if list.entries.length = 0 then (false, L)
  else
    list.entries.foldl
      (fun (acc : Bool × Layer) e =>
        let r := acc.2.set_param e.1 e.2
        (if !r.1 then false else acc.1, r.2))
      (true, L)

/-- The method `Layer::get_param_vocab`: `z_depth`, followed by the
parameters of the concrete type. -/
def get_param_vocab (L : Layer) : List String :=
  "z_depth" :: L.params.entries.map Prod.fst

/-- The method `Layer::get_param`. For `z_depth` it returns `get_z_depth()`,
the accessor without argument, which is declared in layer.h (not among the
sources) and is taken to return the static field. The concrete type answers
for its own parameters; any other name gives an empty value. -/
def get_param (L : Layer) (param : String) : ValueBase :=
  if param = "z_depth" then ValueBase.real L.z_depth_
  else match L.params.find param with
    | some v => v
    | none => ValueBase.nil

/-- The method `Layer::get_param_list`. -/
def get_param_list (L : Layer) : ParamList :=
  L.get_param_vocab.foldl (fun ret name => ret.insert name (L.get_param name)) StdMap.empty

end Layer

/-! ## The type registry -/

/-- The type `Layer::BookEntry`. The factory is a function pointer; it is
called with no argument and returns the layer it has constructed. -/
structure BookEntry where
  factory : Unit → Layer
  name : String
  local_name : String
  category : String
  cvs_id : String
  version : String

/-- The default-constructed `BookEntry()` that `operator[]` would insert
under a missing key. `Layer::create` never reads it: it tests `count` first. -/
def BookEntry.default : BookEntry :=
  { factory := fun _ => Layer.new, name := "", local_name := "", category := "",
    cvs_id := "", version := "" }

/-- The type `Layer::Book`. -/
abbrev Book := StdMap BookEntry

/-- The globals of layer.cpp: the book behind `_layer_book` and
`_LayerCounter::counter`, the number of layers alive. -/
structure Globals where
  _layer_book : Book
  counter : Int

namespace Layer

/-- The function `Layer::book()`. -/
def book (G : Globals) : Book := G._layer_book

/-- The function `Layer::register_in_book`. -/
def register_in_book (G : Globals) (entry : BookEntry) : Globals :=
  { G with _layer_book := (book G).insert entry.name entry }

/-- The function `Layer::create`. Either branch constructs one layer, whose
constructor increments the counter. -/
def create (G : Globals) (name : String) : Layer × Globals :=
  if (book G).count name = 0 then
    (Layer_Mime name, { G with counter := G.counter + 1 })
  else
    let acc := (book G).index name BookEntry.default
    (acc.2.factory (), { _layer_book := acc.1, counter := G.counter + 1 })

/-- The loop of `simple_clone` over the dynamic parameters: each binding is
connected to the new layer. -/
def connect_all (E : Env) (ret : Layer) : List (String × Option Nat) → Option Layer
  | [] => some ret
  | e :: rest =>
    match ret.connect_dynamic_param E e.1 e.2 with
    | some r => connect_all E r.2 rest
    | none => none

/-- The method `Layer::simple_clone`. The outer `Option` is `none` when an
empty handle is dereferenced; the inner one is the handle returned. -/
def simple_clone (E : Env) (G : Globals) (L : Layer) : Option (Option Layer × Globals) :=
  if (book G).count L.get_name = 0 then some (none, G)
  else
    let made := create G L.get_name
    let ret0 := { made.1 with group_ := L.group_ }
    let ret1 := ret0.set_description L.get_description
    let ret2 := ret1.set_active L.active
    let ret3 := (ret2.set_param_list L.get_param_list).2
    match connect_all E ret3 L.dynamic_param_list.entries with
    | some ret => some (some ret, made.2)
    | none => none

/-- The argument `clone` passes to `ret->set_param` for one entry of the
parameter list (first loop of `Layer::clone`): an inline canvas of a
parameter without dynamic binding is replaced by its clone. -/
def clone_param (E : Env) (L : Layer) (deriv_guid : GUID) (e : String × ValueBase) :
    String × ValueBase :=
  if L.dynamic_param_list.count e.1 = 0 ∧ e.2.get_type = ValueType.TYPE_CANVAS then
    match e.2.get_canvas with
    | some canvas =>
      if E.is_inline canvas then
        (e.1, ValueBase.canvas (some (E.canvas_clone canvas deriv_guid)))
      else e
    | none => e
  else e

/-- The calls `ret->set_param(name, value)` of the first loop of
`Layer::clone`, in order. -/
def clone_set_param_calls (E : Env) (L : Layer) (deriv_guid : GUID) :
    List (String × ValueBase) :=
  L.get_param_list.entries.map (clone_param E L deriv_guid)

/-- The end of one turn of the second loop of `Layer::clone`: an exported
node is shared, any other node is cloned. -/
def clone_share_or_copy (E : Env) (deriv_guid : GUID) (ret : Layer) (name : String)
    (node : Nat) : Option (Bool × Layer) :=
  if E.is_exported node then ret.connect_dynamic_param E name (some node)
  else ret.connect_dynamic_param E name (some (E.node_clone node deriv_guid))

/-- One turn of the second loop of `Layer::clone`. The result is `none` when
the turn dereferences an empty handle: `iter->second->get_type()` on an empty
binding, or `canvas->is_inline()` on an empty canvas handle. -/
def clone_dynamic_step (E : Env) (deriv_guid : GUID) (ret : Layer)
    (e : String × Option Nat) : Option (Bool × Layer) :=
  match e.2 with
  | none => none
  | some node =>
    if E.get_type node = ValueType.TYPE_CANVAS then
      match (E.value_at node 0).get_canvas with
      | none => none
      | some canvas =>
        if E.is_inline canvas then
          let new_canvas := E.canvas_clone canvas deriv_guid
          let value := ValueBase.canvas (some new_canvas)
          ret.connect_dynamic_param E e.1 (some (E.const_create value))
        else clone_share_or_copy E deriv_guid ret e.1 node
    else clone_share_or_copy E deriv_guid ret e.1 node

/-- The second loop of `Layer::clone`, over the dynamic parameters. -/
def clone_dynamic (E : Env) (deriv_guid : GUID) (ret : Layer) :
    List (String × Option Nat) → Option Layer
  | [] => some ret
  | e :: rest =>
    match clone_dynamic_step E deriv_guid ret e with
    | some r => clone_dynamic E deriv_guid r.2 rest
    | none => none

/-- The method `Layer::clone`. The outer `Option` is `none` when an empty
handle is dereferenced; the inner one is the handle returned. -/
def clone (E : Env) (G : Globals) (L : Layer) (deriv_guid : GUID) :
    Option (Option Layer × Globals) :=
  if (book G).count L.get_name = 0 then some (none, G)
  else
    let made := create G L.get_name
    let ret0 := { made.1 with group_ := L.group_ }
    let ret1 := ret0.set_description L.get_description
    let ret2 := ret1.set_active L.active
    let ret3 := ret2.set_guid (GUID.combine L.get_guid deriv_guid)
    let ret4 := (clone_set_param_calls E L deriv_guid).foldl
      (fun (ret : Layer) call => (ret.set_param call.1 call.2).2) ret3
    match clone_dynamic E deriv_guid ret4 L.dynamic_param_list.entries with
    | some ret => some (some ret, made.2)
    | none => none

end Layer

/-- The layer `Layer::clone` has built when it enters its second loop. -/
def Layer.clone_before_dynamic (E : Env) (G : Globals) (L : Layer) (t : GUID) : Layer :=
  (Layer.clone_set_param_calls E L t).foldl
    (fun (ret : Layer) call => (ret.set_param call.1 call.2).2)
    (((({ (Layer.create G L.get_name).1 with group_ := L.group_ }).set_description
      L.get_description).set_active L.active).set_guid (GUID.combine L.get_guid t))

/-- Modelled from the spec: the factories of the concrete layer types are
not among the sources; by the lifecycle of the spec a layer is "constructed
... with no bindings", as `Layer::Layer()` leaves it. -/
def BookEntry.constructs_unbound (e : BookEntry) : Prop :=
  (e.factory ()).dynamic_param_list_.entries = []

/-- Tells whether the second loop of `Layer::clone` can read a binding
without dereferencing an empty handle: the node handle is not empty and, for
a node of canvas type, neither is the canvas handle it evaluates to at time 0. -/
def binding_readable (E : Env) (e : String × Option Nat) : Bool :=
  match e.2 with
  | none => false
  | some node =>
    if E.get_type node = ValueType.TYPE_CANVAS then ((E.value_at node 0).get_canvas).isSome
    else true

/-! ## Depth, time points, groups, bounding rectangles and destruction -/

namespace Layer

/-- The method `Layer::get_z_depth(t)`. With an entry under "z_depth" it
evaluates the node of the entry; the result is `none` when the handle of
that entry is empty, which the method dereferences. -/
def get_z_depth (E : Env) (L : Layer) (t : Time) : Option Int :=
  if L.dynamic_param_list.count "z_depth" = 0 then some L.z_depth_
  else
    match L.dynamic_param_list.find "z_depth" with
    | some (some node) => some (E.value_at node t).get_real
    | _ => none

/-- The loop of `Layer::get_times_vfunc`: the time points of the node of each
entry are inserted into the set. A `Node::time_set` is a `std::set`; its
elements are told apart by their time. The result is `none` when an entry
holds an empty handle (`i->second->get_times()`). -/
def insert_times (E : Env) : List (String × Option Nat) → Finset Time → Option (Finset Time)
  | [], set => some set
  | e :: rest, set =>
    match e.2 with
    | none => none
    | some node => insert_times E rest (set ∪ (E.get_times node).toFinset)

/-- The method `Layer::get_times_vfunc`: the set after the call. -/
def get_times_vfunc (E : Env) (L : Layer) (set : Finset Time) : Option (Finset Time) :=
  insert_times E L.dynamic_param_list_.entries set

/-- The method `Layer::remove_from_all_groups`. -/
def remove_from_all_groups (L : Layer) : Layer :=
  if L.group_ = "" then L
  else
    let L1 := { L with log := L.log ++ [Event.signal_removed_from_group L.group_] }
    { L1 with group_ := "" }

/-- The method `Layer::add_to_group`. -/
def add_to_group (L : Layer) (x : String) : Layer :=
  if x = L.group_ then L
  else
    let L1 := if L.group_ ≠ "" then L.remove_from_all_groups else L
    let L2 := { L1 with group_ := x }
    { L2 with log := L2.log ++ [Event.signal_added_to_group L2.group_] }

/-- The method `Layer::remove_from_group`. -/
def remove_from_group (L : Layer) (x : String) : Layer :=
  if L.group_ = x then L.remove_from_all_groups else L

/-- The method `Layer::on_canvas_set`, empty in the base class. -/
def on_canvas_set (L : Layer) : Layer := L

/-- The method `Layer::set_canvas`. -/
def set_canvas (L : Layer) (x : Option Nat) : Layer :=
  if L.canvas_ ≠ x then
    let L1 := { L with parent_death_connect_ := false,
                       log := L.log ++ [Event.parent_death_disconnect] }
    let L2 := { L1 with canvas_ := x }
    let L3 := if x.isSome then { L2 with parent_death_connect_ := true } else L2
    L3.on_canvas_set
  else L

/-- The loop of the destructor: while the map is not empty, the edge to the
node of its first entry is removed and the entry is erased. The list is the
entries still in the map. The result is `none` when an entry holds an empty
handle, which `remove_child` dereferences. -/
def release_bindings (L : Layer) : List (String × Option Nat) → Option Layer
  | [] => some L
  | e :: rest =>
    match e.2 with
    | none => none
    | some node =>
      let L1 := L.remove_child node
      release_bindings { L1 with dynamic_param_list_ := L1.dynamic_param_list_.erase e.1 } rest

/-- The destructor `Layer::~Layer`: the layer as it is when the body of the
destructor ends, and the globals, whose counter of layers went down. -/
def destructor (G : Globals) (L : Layer) : Option (Layer × Globals) :=
  match release_bindings L L.dynamic_param_list_.entries with
  | none => none
  | some L1 =>
    let L2 := L1.remove_from_all_groups
    let L3 := { L2 with parent_death_connect_ := false,
                        log := L2.log ++ [Event.parent_death_disconnect] }
    let L4 := { L3 with log := L3.log ++ [Event.begin_delete] }
    some (L4, { G with counter := G.counter - 1 })

end Layer

/-- A `synfig::Rect`: an axis-parallel rectangle; coordinates are carried by
integers. -/
structure Rect where
  minx : Int
  maxx : Int
  miny : Int
  maxy : Int
  deriving DecidableEq, Repr

/-- The operations of rect.h (not among the sources) that layer.cpp and the
context use: `Rect::full_plane()`, `Rect::zero()` and the union `a | b`. -/
structure RectOps where
  full_plane : Rect
  zero : Rect
  union : Rect → Rect → Rect

/-- A `synfig::Context`: the layers below the current one, top first. -/
abbrev Context := List Layer

/-- The method `Layer::get_bounding_rect` of the base class. -/
def Layer.get_bounding_rect (R : RectOps) (_L : Layer) : Rect := R.full_plane

/-- Modelled from the spec: `Context::get_full_bounding_rect` (context.cpp is
not among the sources); "if the current layer is active, union its own
bounding rect with the recursive result from below; otherwise pass through
unchanged". An empty context gives `Rect::zero()`. -/
def Context.get_full_bounding_rect (R : RectOps) : Context → Rect
  | [] => R.zero
  | L :: below =>
    if L.active then R.union (Context.get_full_bounding_rect R below) (L.get_bounding_rect R)
    else Context.get_full_bounding_rect R below

/-- The method `Layer::get_full_bounding_rect`. -/
def Layer.get_full_bounding_rect (R : RectOps) (L : Layer) (context : Context) : Rect :=
  if L.active then R.union (Context.get_full_bounding_rect R context) (L.get_bounding_rect R)
  else Context.get_full_bounding_rect R context

/-- The states a fresh layer reaches by calls of `connect_dynamic_param`,
`disconnect_dynamic_param` and `set_param`. -/
inductive Reachable (E : Env) : Layer → Prop
  | fresh : Reachable E Layer.new
  | connect (L L1 : Layer) (p : String) (v : Option Nat) (b : Bool) :
      Reachable E L → L.connect_dynamic_param E p v = some (b, L1) → Reachable E L1
  | disconnect (L : Layer) (p : String) :
      Reachable E L → Reachable E (L.disconnect_dynamic_param p).2
  | set_param (L : Layer) (p : String) (v : ValueBase) :
      Reachable E L → Reachable E (L.set_param p v).2

/-! ## Sample objects -/

/-- A sample environment: nodes 1 to 9 are plain real-valued nodes, not
exported; nodes 10 to 19 are exported real-valued nodes; node 20 is an
exported node of canvas type whose value is the inline canvas 100; node 21
is a node of canvas type whose value is an empty canvas handle. Canvases
from 100 on are inline. Clones get fresh addresses. -/
def sampleEnv : Env :=
  { is_exported := fun n => decide (10 ≤ n ∧ n ≤ 20),
    get_type := fun n => if n = 20 ∨ n = 21 then ValueType.TYPE_CANVAS else ValueType.TYPE_REAL,
    value_at := fun n _ =>
      if n = 20 then ValueBase.canvas (some 100)
      else if n = 21 then ValueBase.canvas none
      else ValueBase.real 0,
    get_times := fun _ => [],
    node_clone := fun n g => 1000 + 2 * (n + g),
    const_create := fun _ => 2001,
    is_inline := fun c => decide (100 ≤ c),
    canvas_clone := fun c g => 3000 + c + g }

/-- The book entry of the sample type "rectangle": its factory constructs a
fresh layer reporting that name. -/
def rectangleEntry : BookEntry :=
  { factory := fun _ => { Layer.new with name__ := "rectangle" }, name := "rectangle",
    local_name := "Rectangle", category := "Geometry", cvs_id := "", version := "0.1" }

/-- A sample registry: the one type "rectangle". -/
def sampleGlobals : Globals :=
  Layer.register_in_book { _layer_book := StdMap.empty, counter := 0 } rectangleEntry

/-- A sample layer of type "rectangle" without bindings. -/
def sampleLayer : Layer :=
  { Layer.new with
    name__ := "rectangle", guid_ := 6, description_ := "box", group_ := "g", active_ := false }

/-- The sample layer with "x" and "y" bound to node 1 and "w" bound to the
exported node 10. -/
def boundLayer : Layer :=
  { sampleLayer with
    dynamic_param_list_ :=
      ((StdMap.empty.insert "x" (some 1)).insert "y" (some 1)).insert "w" (some 10),
    children := [1, 10] }

/-- The sample layer with "x" bound to node 20, an exported node of canvas
type whose value is the inline canvas 100. -/
def canvasBoundLayer : Layer :=
  { sampleLayer with
    dynamic_param_list_ := StdMap.empty.insert "x" (some 20),
    children := [20] }

/-- Runs a list of `connect_dynamic_param` calls on a layer. -/
def connects (E : Env) (L : Layer) : List (String × Nat) → Option Layer
  | [] => some L
  | c :: rest =>
    match L.connect_dynamic_param E c.1 (some c.2) with
    | some r => connects E r.2 rest
    | none => none

/-- The sample environment with time points: node `n` reports the times
`n` and `2 * n`. -/
def timedEnv : Env :=
  { sampleEnv with get_times := fun n => [(n : Int), 2 * (n : Int)] }

/-- The sample layer with "x" bound to node 21, a node of canvas type whose
value is an empty canvas handle. -/
def emptyCanvasBoundLayer : Layer :=
  { sampleLayer with
    dynamic_param_list_ := StdMap.empty.insert "x" (some 21),
    children := [21] }

/-- The sample layer whose concrete type has a parameter "canvas" holding an
empty canvas handle, without any binding. -/
def emptyCanvasStaticLayer : Layer :=
  { sampleLayer with params := StdMap.empty.insert "canvas" (ValueBase.canvas none) }

/-- The sample layer with its bindings, attached to canvas 7. -/
def attachedLayer : Layer := boundLayer.set_canvas (some 7)

/-- Sample rectangle operations: the union is the bounding box. -/
def sampleRectOps : RectOps :=
  { full_plane := { minx := -1000, maxx := 1000, miny := -1000, maxy := 1000 },
    zero := { minx := 0, maxx := 0, miny := 0, maxy := 0 },
    union := fun a b =>
      { minx := min a.minx b.minx, maxx := max a.maxx b.maxx,
        miny := min a.miny b.miny, maxy := max a.maxy b.maxy } }

/-! ## Lemmas on the dynamic parameter bindings -/

theorem mem_set_insert (n : Nat) (l : List Nat) :
    n ∈ (if n ∈ l then l else l ++ [n]) := by
  by_cases h : n ∈ l
  · simp [h]
  · simp [h]

/-- Connecting the handle a parameter already holds changes nothing. -/
theorem connect_same (E : Env) (L : Layer) (p : String) (v : Option Nat)
    (h : L.dynamic_param_list_.find p = some v) :
    L.connect_dynamic_param E p v = some (true, L) := by
  unfold Layer.connect_dynamic_param StdMap.index
  simp only [h, if_true]

/-- What a connect of a non-empty handle leaves behind. -/
theorem connect_some (E : Env) (L : Layer) (p : String) (n : Nat) :
    ∃ L', L.connect_dynamic_param E p (some n) = some (true, L')
      ∧ L'.dynamic_param_list_.find p = some (some n)
      ∧ (∀ q, q ≠ p → L'.dynamic_param_list_.find q = L.dynamic_param_list_.find q)
      ∧ L'.guid_ = L.guid_ ∧ L'.group_ = L.group_ ∧ L'.description_ = L.description_
      ∧ L'.active_ = L.active_ ∧ L'.name__ = L.name__
      ∧ (L.dynamic_param_list_.find p ≠ some (some n) → n ∈ L'.children) := by
  by_cases hsame : L.dynamic_param_list_.find p = some (some n)
  · exact ⟨L, connect_same E L p (some n) hsame, hsame, fun _ _ => rfl, rfl, rfl, rfl, rfl, rfl,
      fun h => absurd hsame h⟩
  · unfold Layer.connect_dynamic_param StdMap.index
    cases hf : L.dynamic_param_list_.find p with
    | none =>
      by_cases hc : (!E.is_exported n && (L.canvas_).isSome) = true
      · simp [hf, hc, Layer.changed, Layer.on_changed, Layer.node_on_changed, Layer.add_child,
          Layer.set_parent_canvas, Layer.get_canvas, StdMap.find_insert]
        exact ⟨fun q hq => by simp [hq], mem_set_insert n _⟩
      · simp [hf, hc, Layer.changed, Layer.on_changed, Layer.node_on_changed, Layer.add_child,
          Layer.set_parent_canvas, Layer.get_canvas, StdMap.find_insert]
        exact ⟨fun q hq => by simp [hq], mem_set_insert n _⟩
    | some v =>
      have hv : ¬ v = some n := fun e => hsame (by rw [hf, e])
      cases v with
      | none =>
        by_cases hc : (!E.is_exported n && (L.canvas_).isSome) = true
        · simp [hf, hc, Layer.changed, Layer.on_changed, Layer.node_on_changed,
            Layer.add_child, Layer.set_parent_canvas, Layer.get_canvas, StdMap.find_insert]
          exact ⟨fun q hq => by simp [hq], mem_set_insert n _⟩
        · simp [hf, hc, Layer.changed, Layer.on_changed, Layer.node_on_changed,
            Layer.add_child, Layer.set_parent_canvas, Layer.get_canvas, StdMap.find_insert]
          exact ⟨fun q hq => by simp [hq], mem_set_insert n _⟩
      | some m =>
        have hm : ¬ m = n := fun e => hv (by rw [e])
        by_cases hc : (!E.is_exported n && (L.canvas_).isSome) = true
        · simp [hf, hc, hm, Layer.changed, Layer.on_changed, Layer.node_on_changed,
            Layer.add_child, Layer.remove_child, Layer.set_parent_canvas, Layer.get_canvas,
            StdMap.find_insert]
          refine ⟨fun q hq => by simp [hq], ?_⟩
          have hm' : ¬ n = m := fun e => hm e.symm
          by_cases h : n ∈ L.children <;> simp [h, hm']
        · simp [hf, hc, hm, Layer.changed, Layer.on_changed, Layer.node_on_changed,
            Layer.add_child, Layer.remove_child, Layer.set_parent_canvas, Layer.get_canvas,
            StdMap.find_insert]
          refine ⟨fun q hq => by simp [hq], ?_⟩
          have hm' : ¬ n = m := fun e => hm e.symm
          by_cases h : n ∈ L.children <;> simp [h, hm']

/-- Disconnecting a parameter that has no entry: `operator[]` leaves an entry
with an empty handle behind, nothing else changes. -/
theorem disconnect_absent (L : Layer) (p : String)
    (h : L.dynamic_param_list_.find p = none) :
    L.disconnect_dynamic_param p
      = (true, { L with dynamic_param_list_ := L.dynamic_param_list_.insert p none }) := by
  unfold Layer.disconnect_dynamic_param StdMap.index
  simp only [h]

/-- Disconnecting a bound parameter: the entry goes, and the edge to its node
goes exactly when no entry is left that holds the node. -/
theorem disconnect_some (L : Layer) (p : String) (n : Nat)
    (h : L.dynamic_param_list_.find p = some (some n)) :
    ∃ L2, L.disconnect_dynamic_param p = (true, L2)
      ∧ (∀ q, L2.dynamic_param_list_.find q
            = if q = p then none else L.dynamic_param_list_.find q)
      ∧ ((∃ q, q ≠ p ∧ L.dynamic_param_list_.find q = some (some n)) →
            L2.children = L.children)
      ∧ ((¬ ∃ q, q ≠ p ∧ L.dynamic_param_list_.find q = some (some n)) →
            L2.children = L.children.filter (fun y => y != n)) := by
  have key : ((L.dynamic_param_list_.erase p).entries.any (fun e => e.2 = some n)) = true
      ↔ ∃ q, q ≠ p ∧ L.dynamic_param_list_.find q = some (some n) := by
    rw [List.any_eq_true]
    constructor
    · rintro ⟨⟨q, v⟩, hmem, hv⟩
      have hv' : v = some n := by simpa using hv
      subst hv'
      have hf := (StdMap.mem_iff_find _ q (some n)).1 hmem
      rw [StdMap.find_erase] at hf
      by_cases hq : q = p
      · simp [hq] at hf
      · rw [if_neg hq] at hf
        exact ⟨q, hq, hf⟩
    · rintro ⟨q, hq, hf⟩
      refine ⟨(q, some n), ?_, by simp⟩
      apply (StdMap.mem_iff_find _ q (some n)).2
      rw [StdMap.find_erase, if_neg hq]
      exact hf
  unfold Layer.disconnect_dynamic_param StdMap.index
  simp only [h, Layer.dynamic_param_list]
  by_cases hfound : ((L.dynamic_param_list_.erase p).entries.any (fun e => e.2 = some n)) = true
  · have hex := key.1 hfound
    simp only [hfound, if_true]
    refine ⟨_, rfl, ?_, ?_, ?_⟩
    · intro q
      simp [Layer.changed, Layer.on_changed, Layer.node_on_changed, StdMap.find_erase]
    · intro _
      simp [Layer.changed, Layer.on_changed, Layer.node_on_changed]
    · intro hno
      exact absurd hex hno
  · have hno : ¬ ∃ q, q ≠ p ∧ L.dynamic_param_list_.find q = some (some n) :=
      fun hex => hfound (key.2 hex)
    simp only [hfound]
    refine ⟨_, rfl, ?_, ?_, ?_⟩
    · intro q
      simp [Layer.changed, Layer.on_changed, Layer.node_on_changed, Layer.remove_child,
        StdMap.find_erase]
    · intro hex
      exact absurd hex hno
    · intro _
      simp [Layer.changed, Layer.on_changed, Layer.node_on_changed, Layer.remove_child]

/-! ## Lemmas on the registry and the clone operations -/

theorem set_param_frame (L : Layer) (p : String) (v : ValueBase) :
    (L.set_param p v).2.dynamic_param_list_ = L.dynamic_param_list_
      ∧ (L.set_param p v).2.guid_ = L.guid_ ∧ (L.set_param p v).2.group_ = L.group_
      ∧ (L.set_param p v).2.description_ = L.description_
      ∧ (L.set_param p v).2.active_ = L.active_ ∧ (L.set_param p v).2.name__ = L.name__ := by
  unfold Layer.set_param
  split <;> simp

theorem set_param_list_fold_frame (es : List (String × ValueBase)) (b : Bool) (L : Layer) :
    let r := es.foldl
      (fun (acc : Bool × Layer) e =>
        let r := acc.2.set_param e.1 e.2
        (if !r.1 then false else acc.1, r.2))
      (b, L)
    r.2.dynamic_param_list_ = L.dynamic_param_list_ ∧ r.2.guid_ = L.guid_
      ∧ r.2.group_ = L.group_ ∧ r.2.description_ = L.description_
      ∧ r.2.active_ = L.active_ ∧ r.2.name__ = L.name__ := by
  induction es generalizing b L with
  | nil => simp
  | cons e rest ih =>
    simp only [List.foldl_cons]
    have h1 := set_param_frame L e.1 e.2
    have h2 := ih (if !(L.set_param e.1 e.2).1 then false else b) (L.set_param e.1 e.2).2
    simp only at h2 ⊢
    obtain ⟨a1, a2, a3, a4, a5, a6⟩ := h1
    obtain ⟨b1, b2, b3, b4, b5, b6⟩ := h2
    exact ⟨b1.trans a1, b2.trans a2, b3.trans a3, b4.trans a4, b5.trans a5, b6.trans a6⟩

theorem set_param_list_frame (L : Layer) (list : ParamList) :
    (L.set_param_list list).2.dynamic_param_list_ = L.dynamic_param_list_
      ∧ (L.set_param_list list).2.guid_ = L.guid_
      ∧ (L.set_param_list list).2.group_ = L.group_
      ∧ (L.set_param_list list).2.description_ = L.description_
      ∧ (L.set_param_list list).2.active_ = L.active_
      ∧ (L.set_param_list list).2.name__ = L.name__ := by
  unfold Layer.set_param_list
  split
  · simp
  · exact set_param_list_fold_frame list.entries true L

theorem set_description_frame (L : Layer) (x : String) :
    (L.set_description x).description_ = x
      ∧ (L.set_description x).dynamic_param_list_ = L.dynamic_param_list_
      ∧ (L.set_description x).guid_ = L.guid_ ∧ (L.set_description x).group_ = L.group_
      ∧ (L.set_description x).active_ = L.active_ ∧ (L.set_description x).name__ = L.name__ := by
  unfold Layer.set_description
  by_cases h : L.description_ = x
  · simp [h]
  · simp [h]

theorem set_active_frame (L : Layer) (x : Bool) :
    (L.set_active x).active_ = x
      ∧ (L.set_active x).dynamic_param_list_ = L.dynamic_param_list_
      ∧ (L.set_active x).guid_ = L.guid_ ∧ (L.set_active x).group_ = L.group_
      ∧ (L.set_active x).description_ = L.description_
      ∧ (L.set_active x).name__ = L.name__ := by
  unfold Layer.set_active Layer.node_on_changed
  by_cases h : L.active_ = x
  · simp [h]
  · simp [h]

/-- The result of `create` on a registered name. -/
theorem create_registered (G : Globals) (s : String) (e : BookEntry)
    (h : (Layer.book G).find s = some e) :
    Layer.create G s = (e.factory (), { _layer_book := G._layer_book, counter := G.counter + 1 }) := by
  have h' : G._layer_book.find s = some e := h
  unfold Layer.create StdMap.count StdMap.index
  simp [h', Layer.book]

/-- The loop of `simple_clone` on bindings that are not empty: it ends, and
the new layer holds the bindings of the list over those it had. -/
theorem connect_all_spec (E : Env) (es : List (String × Option Nat)) (ret : Layer)
    (hs : KeysSorted es) (hnn : ∀ e ∈ es, e.2 ≠ none) :
    ∃ r, Layer.connect_all E ret es = some r
      ∧ (∀ q, r.dynamic_param_list_.find q
            = match rawFind q es with
              | some v => some v
              | none => ret.dynamic_param_list_.find q)
      ∧ r.group_ = ret.group_ ∧ r.description_ = ret.description_
      ∧ r.active_ = ret.active_ ∧ r.guid_ = ret.guid_ ∧ r.name__ = ret.name__ := by
  induction es generalizing ret with
  | nil => exact ⟨ret, rfl, fun q => rfl, rfl, rfl, rfl, rfl, rfl⟩
  | cons e rest ih =>
    obtain ⟨k, v⟩ := e
    have hv : v ≠ none := hnn (k, v) (List.mem_cons_self _ _)
    obtain ⟨n, rfl⟩ := Option.ne_none_iff_exists'.1 hv
    have hrest : KeysSorted rest := by
      have := hs
      simp only [KeysSorted, List.map_cons, List.pairwise_cons] at this
      exact this.2
    have htail : rawFind k rest = none := rawFind_tail_none k (some n) rest hs
    obtain ⟨L1, hc, hp, hq, hg, hgr, hd, ha, hn, -⟩ := connect_some E ret k n
    obtain ⟨r, hr, hfind, h1, h2, h3, h4, h5⟩ :=
      ih L1 hrest (fun e he => hnn e (List.mem_cons_of_mem _ he))
    refine ⟨r, ?_, ?_, h1.trans hgr, h2.trans hd, h3.trans ha, h4.trans hg, h5.trans hn⟩
    · simp only [Layer.connect_all, hc]
      exact hr
    · intro q
      rw [hfind q]
      by_cases hqk : k = q
      · subst hqk
        simp [rawFind, htail, hp]
      · have hqk' : q ≠ k := fun e => hqk e.symm
        simp only [rawFind, hqk, if_false]
        cases hrf : rawFind q rest with
        | some v => rfl
        | none => exact hq q hqk'

/-- A turn of the second loop of `clone` that does not fault is one connect
of a non-empty handle under the name of the binding. -/
theorem clone_dynamic_step_connect (E : Env) (t : GUID) (ret : Layer)
    (e : String × Option Nat) (x : Bool × Layer)
    (h : Layer.clone_dynamic_step E t ret e = some x) :
    ∃ m, ret.connect_dynamic_param E e.1 (some m) = some x := by
  obtain ⟨k, v⟩ := e
  unfold Layer.clone_dynamic_step Layer.clone_share_or_copy at h
  cases v with
  | none => simp at h
  | some node =>
    simp only at h
    by_cases hty : E.get_type node = ValueType.TYPE_CANVAS
    · rw [if_pos hty] at h
      cases hc : (E.value_at node 0).get_canvas with
      | none => simp [hc] at h
      | some c =>
        simp only [hc] at h
        by_cases hin : E.is_inline c = true
        · rw [if_pos hin] at h
          exact ⟨_, h⟩
        · rw [if_neg hin] at h
          by_cases hex : E.is_exported node = true
          · rw [if_pos hex] at h
            exact ⟨_, h⟩
          · rw [if_neg hex] at h
            exact ⟨_, h⟩
    · rw [if_neg hty] at h
      by_cases hex : E.is_exported node = true
      · rw [if_pos hex] at h
        exact ⟨_, h⟩
      · rw [if_neg hex] at h
        exact ⟨_, h⟩

/-- A turn of the second loop of `clone` on an exported node that is not a
canvas node holding an inline canvas: if it does not fault, it connects the
node itself. -/
theorem clone_dynamic_step_exported (E : Env) (t : GUID) (ret : Layer) (k : String) (n : Nat)
    (x : Bool × Layer)
    (hexp : E.is_exported n = true)
    (hnc : ∀ c, E.get_type n = ValueType.TYPE_CANVAS →
      (E.value_at n 0).get_canvas = some c → E.is_inline c = false)
    (h : Layer.clone_dynamic_step E t ret (k, some n) = some x) :
    ret.connect_dynamic_param E k (some n) = some x := by
  unfold Layer.clone_dynamic_step Layer.clone_share_or_copy at h
  simp only at h
  by_cases hty : E.get_type n = ValueType.TYPE_CANVAS
  · rw [if_pos hty] at h
    cases hc : (E.value_at n 0).get_canvas with
    | none => simp [hc] at h
    | some c =>
      simp only [hc] at h
      have hin : ¬ E.is_inline c = true := by
        rw [hnc c hty hc]
        simp
      rw [if_neg hin, if_pos hexp] at h
      exact h
  · rw [if_neg hty, if_pos hexp] at h
    exact h

/-- The second loop of `clone` keeps the identity of the new layer and the
bindings of the names it does not meet. -/
theorem clone_dynamic_frame (E : Env) (t : GUID) (es : List (String × Option Nat))
    (ret r : Layer) (h : Layer.clone_dynamic E t ret es = some r) :
    r.guid_ = ret.guid_
      ∧ ∀ q, rawFind q es = none →
          r.dynamic_param_list_.find q = ret.dynamic_param_list_.find q := by
  induction es generalizing ret with
  | nil =>
    simp only [Layer.clone_dynamic, Option.some.injEq] at h
    subst h
    exact ⟨rfl, fun _ _ => rfl⟩
  | cons e rest ih =>
    obtain ⟨k, v⟩ := e
    simp only [Layer.clone_dynamic] at h
    cases hstep : Layer.clone_dynamic_step E t ret (k, v) with
    | none => simp [hstep] at h
    | some x =>
      simp only [hstep] at h
      obtain ⟨m, hm⟩ := clone_dynamic_step_connect E t ret (k, v) x hstep
      obtain ⟨L1, hc, -, hq, hg, -⟩ := connect_some E ret k m
      simp only at hm
      rw [hc] at hm
      cases hm
      obtain ⟨g1, f1⟩ := ih L1 h
      refine ⟨g1.trans hg, ?_⟩
      intro q hnone
      by_cases hkq : k = q
      · simp [rawFind, hkq] at hnone
      · simp only [rawFind, hkq, if_false] at hnone
        rw [f1 q hnone]
        exact hq q (fun e => hkq e.symm)

/-- The second loop of `clone` binds a name to the very node the original
binds it to when that node is exported and is not a canvas node holding an
inline canvas. -/
theorem clone_dynamic_shares (E : Env) (t : GUID) (es : List (String × Option Nat))
    (ret r : Layer) (hs : KeysSorted es)
    (h : Layer.clone_dynamic E t ret es = some r) (p : String) (n : Nat)
    (hp : rawFind p es = some (some n))
    (hexp : E.is_exported n = true)
    (hnc : ∀ c, E.get_type n = ValueType.TYPE_CANVAS →
      (E.value_at n 0).get_canvas = some c → E.is_inline c = false) :
    r.dynamic_param_list_.find p = some (some n) := by
  induction es generalizing ret with
  | nil => simp [rawFind] at hp
  | cons e rest ih =>
    obtain ⟨k, v⟩ := e
    have hrest : KeysSorted rest := by
      have := hs
      simp only [KeysSorted, List.map_cons, List.pairwise_cons] at this
      exact this.2
    simp only [Layer.clone_dynamic] at h
    cases hstep : Layer.clone_dynamic_step E t ret (k, v) with
    | none => simp [hstep] at h
    | some x =>
      simp only [hstep] at h
      by_cases hkp : k = p
      · subst hkp
        simp only [rawFind, if_true, Option.some.injEq] at hp
        subst hp
        have hconn := clone_dynamic_step_exported E t ret k n x hexp hnc hstep
        obtain ⟨L1, hc, hfp, -⟩ := connect_some E ret k n
        rw [hc] at hconn
        cases hconn
        have htail : rawFind k rest = none := rawFind_tail_none k (some n) rest hs
        rw [(clone_dynamic_frame E t rest L1 r h).2 k htail]
        exact hfp
      · simp only [rawFind, hkp, if_false] at hp
        exact ih x.2 hrest h hp

/-- The second loop of `clone` ends without fault on readable bindings. -/
theorem clone_dynamic_total (E : Env) (t : GUID) (es : List (String × Option Nat))
    (ret : Layer) (hok : es.all (binding_readable E) = true) :
    ∃ r, Layer.clone_dynamic E t ret es = some r := by
  induction es generalizing ret with
  | nil => exact ⟨ret, rfl⟩
  | cons e rest ih =>
    obtain ⟨k, v⟩ := e
    simp only [List.all_cons, Bool.and_eq_true] at hok
    obtain ⟨hread, hrest⟩ := hok
    have hstep : ∃ x, Layer.clone_dynamic_step E t ret (k, v) = some x := by
      unfold binding_readable at hread
      unfold Layer.clone_dynamic_step Layer.clone_share_or_copy
      cases v with
      | none => simp at hread
      | some node =>
        simp only at hread ⊢
        by_cases hty : E.get_type node = ValueType.TYPE_CANVAS
        · rw [if_pos hty] at hread ⊢
          cases hc : (E.value_at node 0).get_canvas with
          | none => simp [hc] at hread
          | some c =>
            simp only
            by_cases hin : E.is_inline c = true
            · rw [if_pos hin]
              obtain ⟨L1, h1, -⟩ := connect_some E ret k
                (E.const_create (ValueBase.canvas (some (E.canvas_clone c t))))
              exact ⟨_, h1⟩
            · rw [if_neg hin]
              by_cases hex : E.is_exported node = true
              · rw [if_pos hex]
                obtain ⟨L1, h1, -⟩ := connect_some E ret k node
                exact ⟨_, h1⟩
              · rw [if_neg hex]
                obtain ⟨L1, h1, -⟩ := connect_some E ret k (E.node_clone node t)
                exact ⟨_, h1⟩
        · rw [if_neg hty]
          by_cases hex : E.is_exported node = true
          · rw [if_pos hex]
            obtain ⟨L1, h1, -⟩ := connect_some E ret k node
            exact ⟨_, h1⟩
          · rw [if_neg hex]
            obtain ⟨L1, h1, -⟩ := connect_some E ret k (E.node_clone node t)
            exact ⟨_, h1⟩
    obtain ⟨x, hx⟩ := hstep
    obtain ⟨r, hr⟩ := ih x.2 hrest
    exact ⟨r, by simp only [Layer.clone_dynamic, hx]; exact hr⟩

theorem set_param_calls_fold_frame (calls : List (String × ValueBase)) (L : Layer) :
    (calls.foldl (fun (ret : Layer) call => (ret.set_param call.1 call.2).2) L).guid_ = L.guid_ := by
  induction calls generalizing L with
  | nil => rfl
  | cons c rest ih =>
    simp only [List.foldl_cons]
    rw [ih]
    exact (set_param_frame L c.1 c.2).2.1

theorem clone_before_dynamic_guid (E : Env) (G : Globals) (L : Layer) (t : GUID) :
    (Layer.clone_before_dynamic E G L t).guid_ = GUID.combine L.guid_ t := by
  unfold Layer.clone_before_dynamic
  rw [set_param_calls_fold_frame]
  rfl

/-- A clone that was returned came out of the second loop. -/
theorem clone_some_inv (E : Env) (G : Globals) (L : Layer) (t : GUID) (r : Layer)
    (G1 : Globals) (h : L.clone E G t = some (some r, G1)) :
    Layer.clone_dynamic E t (Layer.clone_before_dynamic E G L t) L.dynamic_param_list_.entries = some r := by
  unfold Layer.clone at h
  by_cases hc : (Layer.book G).count L.get_name = 0
  · rw [if_pos hc] at h
    simp at h
  · rw [if_neg hc] at h
    simp only [Layer.dynamic_param_list] at h
    change (match Layer.clone_dynamic E t (Layer.clone_before_dynamic E G L t)
        L.dynamic_param_list_.entries with
      | some ret => some (some ret, (Layer.create G L.get_name).2)
      | none => none) = some (some r, G1) at h
    cases hd : Layer.clone_dynamic E t (Layer.clone_before_dynamic E G L t)
        L.dynamic_param_list_.entries with
    | none => simp [hd] at h
    | some ret =>
      simp only [hd, Option.some.injEq, Prod.mk.injEq] at h
      rw [h.1]

/-- A registered layer with readable bindings has a clone. -/
theorem clone_returns (E : Env) (G : Globals) (L : Layer) (t : GUID)
    (hreg : (Layer.book G).count L.get_name ≠ 0)
    (hok : L.dynamic_param_list_.entries.all (binding_readable E) = true) :
    ∃ r G1, L.clone E G t = some (some r, G1) := by
  obtain ⟨r, hr⟩ := clone_dynamic_total E t L.dynamic_param_list_.entries
    (Layer.clone_before_dynamic E G L t) hok
  refine ⟨r, (Layer.create G L.get_name).2, ?_⟩
  unfold Layer.clone
  rw [if_neg hreg]
  simp only [Layer.dynamic_param_list]
  change (match Layer.clone_dynamic E t (Layer.clone_before_dynamic E G L t)
      L.dynamic_param_list_.entries with
    | some ret => some (some ret, (Layer.create G L.get_name).2)
    | none => none) = _
  rw [hr]

/-- C1 (the code departs from the claim). A fresh layer gets "x" and "y" bound
to node 1, which gives it the propagation edge to node 1. Connecting "x" to
node 2 then removes that edge although "y" is still bound to node 1:
`connect_dynamic_param` calls `remove_child(previous)` without looking for
another parameter that holds the previous node. -/
theorem connect_dynamic_param_drops_shared_edge :
    ∃ L L', connects sampleEnv Layer.new [("x", 1), ("y", 1)] = some L
      ∧ L.dynamic_param_list.find "x" = some (some 1)
      ∧ L.dynamic_param_list.find "y" = some (some 1)
      ∧ 1 ∈ L.children
      ∧ L.connect_dynamic_param sampleEnv "x" (some 2) = some (true, L')
      ∧ L'.dynamic_param_list.find "y" = some (some 1)
      ∧ 1 ∉ L'.children := by
  refine ⟨_, _, rfl, ?_, ?_, ?_, rfl, ?_, ?_⟩ <;> decide

/-- C2. For every layer, name `p` and node `n`: `connect_dynamic_param(p, n)`
followed by `disconnect_dynamic_param(p)` both return true, and the
disconnect removes the propagation edge to `n` exactly when no other
parameter is bound to `n`: with no other such parameter the layer has no edge
to `n` afterwards; with another one the disconnect leaves the set of edges
as the connect left it. On a layer that had the edge to `n` whenever `p` was
already bound to `n`, the edge to `n` is absent afterwards if and only if no
other parameter is bound to `n`. -/
theorem disconnect_removes_edge_iff_unshared (E : Env) (L : Layer) (p : String) (n : Nat) :
    ∃ L1 L2, L.connect_dynamic_param E p (some n) = some (true, L1)
      ∧ L1.disconnect_dynamic_param p = (true, L2)
      ∧ ((∀ q, q ≠ p → L.dynamic_param_list.find q ≠ some (some n)) → n ∉ L2.children)
      ∧ ((∃ q, q ≠ p ∧ L.dynamic_param_list.find q = some (some n)) →
            L2.children = L1.children)
      ∧ ((L.dynamic_param_list.find p = some (some n) → n ∈ L.children) →
            (n ∉ L2.children ↔
              ∀ q, q ≠ p → L.dynamic_param_list.find q ≠ some (some n))) := by
  obtain ⟨L1, hc, hp, hq, -, -, -, -, -, hch⟩ := connect_some E L p n
  obtain ⟨L2, hd, -, hkeep, hdrop⟩ := disconnect_some L1 p n hp
  have hgone : (∀ q, q ≠ p → L.dynamic_param_list_.find q ≠ some (some n)) →
      n ∉ L2.children := by
    intro hall
    have hno : ¬ ∃ q, q ≠ p ∧ L1.dynamic_param_list_.find q = some (some n) := by
      rintro ⟨q, hne, hfq⟩
      rw [hq q hne] at hfq
      exact hall q hne hfq
    rw [hdrop hno]
    simp
  have hstay : (∃ q, q ≠ p ∧ L.dynamic_param_list_.find q = some (some n)) →
      L2.children = L1.children := by
    rintro ⟨q, hne, hfq⟩
    exact hkeep ⟨q, hne, by rw [hq q hne]; exact hfq⟩
  refine ⟨L1, L2, hc, hd, hgone, hstay, ?_⟩
  intro hinv
  have hmem : n ∈ L1.children := by
    by_cases hsame : L.dynamic_param_list_.find p = some (some n)
    · have := connect_same E L p (some n) hsame
      rw [this] at hc
      cases hc
      exact hinv hsame
    · exact hch hsame
  constructor
  · intro hnot q hne hfq
    rw [hstay ⟨q, hne, hfq⟩] at hnot
    exact hnot hmem
  · exact hgone

/-- C2, the scenario: on the sample layer "x" and "y" are bound to node 1 and
no other parameter is; disconnecting "x" keeps the edge to node 1, and
disconnecting "y" after that removes it. -/
theorem disconnect_shared_scenario :
    boundLayer.dynamic_param_list.find "x" = some (some 1)
      ∧ boundLayer.dynamic_param_list.find "y" = some (some 1)
      ∧ 1 ∈ boundLayer.children
      ∧ 1 ∈ (boundLayer.disconnect_dynamic_param "x").2.children
      ∧ 1 ∉ ((boundLayer.disconnect_dynamic_param "x").2.disconnect_dynamic_param "y").2.children
      ∧ ∃ L1 L2, boundLayer.connect_dynamic_param sampleEnv "x" (some 1) = some (true, L1)
          ∧ L1.disconnect_dynamic_param "x" = (true, L2)
          ∧ L2.children = L1.children := by
  refine ⟨by decide, by decide, by decide, by decide, by decide, ?_⟩
  obtain ⟨L1, L2, hc, hd, -, hstay, -⟩ :=
    disconnect_removes_edge_iff_unshared sampleEnv boundLayer "x" 1
  exact ⟨L1, L2, hc, hd, hstay ⟨"y", by decide, by decide⟩⟩

/-- After the defect of C1 has removed an edge that is still in use, a
connect of the node to a parameter that already holds it does not bring the
edge back: a fresh layer gets "x", "y" and "z" bound to node 1 and then "z"
bound to node 2; connecting "x" to node 1 and disconnecting "x" then leaves
"y" bound to node 1 without an edge to node 1. -/
theorem edge_stays_lost_after_reconnect :
    ∃ L L1 L2, connects sampleEnv Layer.new [("x", 1), ("y", 1), ("z", 1), ("z", 2)] = some L
      ∧ L.connect_dynamic_param sampleEnv "x" (some 1) = some (true, L1)
      ∧ L1.disconnect_dynamic_param "x" = (true, L2)
      ∧ L2.dynamic_param_list.find "y" = some (some 1)
      ∧ 1 ∉ L2.children := by
  refine ⟨_, _, _, rfl, rfl, rfl, ?_, ?_⟩ <;> decide

/-- C3 (the code departs from the claim). Disconnecting "z_depth" on a fresh
layer, which has no binding, returns true but is not a no-op: reading
`dynamic_param_list_[param]` leaves an entry with an empty handle under
"z_depth", so `count("z_depth")` goes from 0 to 1. -/
theorem disconnect_unbound_adds_empty_entry :
    Layer.new.dynamic_param_list.count "z_depth" = 0
      ∧ (Layer.new.disconnect_dynamic_param "z_depth").1 = true
      ∧ (Layer.new.disconnect_dynamic_param "z_depth").2.dynamic_param_list.count "z_depth" = 1
      ∧ (Layer.new.disconnect_dynamic_param "z_depth").2.dynamic_param_list.entries
          = [("z_depth", none)]
      ∧ (Layer.new.disconnect_dynamic_param "z_depth").2 ≠ Layer.new := by
  decide

/-- C4. For every layer, parameter name and non-empty node handle, the first
`connect_dynamic_param` succeeds and a second call with the same arguments
returns true and leaves the whole layer, its bindings, its edges and its log
of notifications, exactly as the first call left it. -/
theorem connect_dynamic_param_twice (E : Env) (L : Layer) (p : String) (n : Nat) :
    ∃ L1, L.connect_dynamic_param E p (some n) = some (true, L1)
      ∧ L1.connect_dynamic_param E p (some n) = some (true, L1) := by
  obtain ⟨L1, hc, hp, -⟩ := connect_some E L p n
  exact ⟨L1, hc, connect_same E L1 p (some n) hp⟩

/-- C5. For every registry and type name, `create` returns a layer and leaves
the book as it was: the layer is the one the factory of the entry under the
name constructs when the name is registered, and otherwise the placeholder
`Layer_Mime`, which reports the name it was asked for. -/
theorem create_never_fails (G : Globals) (s : String) :
    (Layer.create G s).2._layer_book = G._layer_book
      ∧ (Layer.create G s).1
          = (match (Layer.book G).find s with
            | some entry => entry.factory ()
            | none => Layer.Layer_Mime s)
      ∧ (Layer.Layer_Mime s).get_name = s
      ∧ (Layer.Layer_Mime s).placeholder = true := by
  cases h : (Layer.book G).find s with
  | some e =>
    rw [create_registered G s e h]
    exact ⟨rfl, rfl, rfl, rfl⟩
  | none =>
    unfold Layer.create StdMap.count
    simp [h]
    exact ⟨rfl, rfl⟩

/-- The scenario of the spec for `create`: with only "rectangle" registered,
`create("rectangle")` is an active layer whose vocabulary has `z_depth`, and
`create("nonexistent")` is a placeholder reporting the name "nonexistent". -/
theorem create_scenario :
    (Layer.create sampleGlobals "rectangle").1.active = true
      ∧ "z_depth" ∈ (Layer.create sampleGlobals "rectangle").1.get_param_vocab
      ∧ (Layer.create sampleGlobals "nonexistent").1.get_name = "nonexistent"
      ∧ (Layer.create sampleGlobals "nonexistent").1.placeholder = true := by
  decide

/-- C6. For every layer whose reported type name is not a key of the book,
`simple_clone()` and `clone(token)` return the empty handle, and the globals
(the book and the count of layers alive) are as before: no layer was made. -/
theorem clone_of_unregistered (E : Env) (G : Globals) (L : Layer) (t : GUID)
    (h : (Layer.book G).count L.get_name = 0) :
    L.simple_clone E G = some (none, G) ∧ L.clone E G t = some (none, G) := by
  unfold Layer.simple_clone Layer.clone
  simp [h]

/-- C6 at the placeholder that `create` returns for the name "nonexistent". -/
theorem clone_of_unregistered_witness :
    (Layer.book sampleGlobals).count (Layer.create sampleGlobals "nonexistent").1.get_name = 0
      ∧ (Layer.create sampleGlobals "nonexistent").1.simple_clone sampleEnv sampleGlobals
          = some (none, sampleGlobals)
      ∧ (Layer.create sampleGlobals "nonexistent").1.clone sampleEnv sampleGlobals 5
          = some (none, sampleGlobals) :=
  ⟨by decide,
    clone_of_unregistered sampleEnv sampleGlobals
      (Layer.create sampleGlobals "nonexistent").1 5 (by decide)⟩

/-- C7. For every layer of a registered type whose bindings are all
non-empty, `simple_clone()` returns a layer that binds every name the
original binds to the same node, and that has the description, the active
flag and the group of the original; when the factory of the type constructs
a layer without bindings, the clone has a binding for exactly the names the
original has. -/
theorem simple_clone_shares_bindings (E : Env) (G : Globals) (L : Layer) (entry : BookEntry)
    (hreg : (Layer.book G).find L.get_name = some entry)
    (hnn : ∀ e ∈ L.dynamic_param_list.entries, e.2 ≠ none) :
    ∃ ret G1, L.simple_clone E G = some (some ret, G1)
      ∧ (∀ q v, L.dynamic_param_list.find q = some v → ret.dynamic_param_list.find q = some v)
      ∧ (entry.constructs_unbound →
          ∀ q, ret.dynamic_param_list.find q = L.dynamic_param_list.find q)
      ∧ ret.get_description = L.get_description
      ∧ ret.active = L.active
      ∧ ret.get_group = L.get_group := by
  have hcount : ¬ (Layer.book G).count L.get_name = 0 := by
    unfold StdMap.count
    simp [hreg]
  have hnn' : ∀ e ∈ L.dynamic_param_list_.entries, e.2 ≠ none := hnn
  obtain ⟨a1, a2, a3, a4, a5, a6⟩ :=
    set_description_frame { entry.factory () with group_ := L.group_ } L.get_description
  obtain ⟨b1, b2, b3, b4, b5, b6⟩ :=
    set_active_frame
      (Layer.set_description { entry.factory () with group_ := L.group_ } L.get_description)
      L.active
  obtain ⟨c1, c2, c3, c4, c5, c6⟩ :=
    set_param_list_frame
      (Layer.set_active
        (Layer.set_description { entry.factory () with group_ := L.group_ } L.get_description)
        L.active)
      L.get_param_list
  obtain ⟨r, hr, hfind, h1, h2, h3, -, -⟩ :=
    connect_all_spec E L.dynamic_param_list_.entries
      ((Layer.set_active
        (Layer.set_description { entry.factory () with group_ := L.group_ } L.get_description)
        L.active).set_param_list L.get_param_list).2
      L.dynamic_param_list_.sorted hnn'
  refine ⟨r, { _layer_book := G._layer_book, counter := G.counter + 1 }, ?_, ?_, ?_, ?_, ?_, ?_⟩
  · unfold Layer.simple_clone
    rw [if_neg hcount, create_registered G L.get_name entry hreg]
    simp only [Layer.dynamic_param_list]
    rw [hr]
  · intro q v hv
    simp only [Layer.dynamic_param_list] at hv ⊢
    rw [hfind q]
    have hv' : rawFind q L.dynamic_param_list_.entries = some v := hv
    rw [hv']
  · intro hfresh q
    simp only [Layer.dynamic_param_list]
    rw [hfind q]
    cases hrf : rawFind q L.dynamic_param_list_.entries with
    | some v => exact hrf.symm
    | none =>
      simp only
      rw [c1, b2, a2]
      have hempty : (entry.factory ()).dynamic_param_list_.entries = [] := hfresh
      show rawFind q (entry.factory ()).dynamic_param_list_.entries
        = rawFind q L.dynamic_param_list_.entries
      rw [hempty, hrf]
      rfl
  · simp only [Layer.get_description] at *
    rw [h2, c4, b5, a1]
  · simp only [Layer.active] at *
    rw [h3, c5, b1]
  · simp only [Layer.get_group]
    rw [h1, c3, b4, a4]

/-- C7 at the sample layer, which binds "x" and "y" to node 1 and "w" to
node 10. -/
theorem simple_clone_shares_bindings_witness :
    (Layer.book sampleGlobals).find boundLayer.get_name = some rectangleEntry
      ∧ (∀ e ∈ boundLayer.dynamic_param_list.entries, e.2 ≠ none)
      ∧ rectangleEntry.constructs_unbound
      ∧ ∃ ret G1, boundLayer.simple_clone sampleEnv sampleGlobals = some (some ret, G1)
          ∧ (∀ q v, boundLayer.dynamic_param_list.find q = some v →
              ret.dynamic_param_list.find q = some v)
          ∧ (rectangleEntry.constructs_unbound →
              ∀ q, ret.dynamic_param_list.find q = boundLayer.dynamic_param_list.find q)
          ∧ ret.get_description = boundLayer.get_description
          ∧ ret.active = boundLayer.active
          ∧ ret.get_group = boundLayer.get_group :=
  ⟨rfl, by decide, rfl,
    simple_clone_shares_bindings sampleEnv sampleGlobals boundLayer rectangleEntry rfl
      (by decide)⟩

/-- C8 (counterexample). The sample layer binds "x" to node 20, which is
exported, of canvas type, and evaluates at time 0 to the inline canvas 100.
Its clone binds "x" to the constant node 2001 made for the cloned canvas,
not to node 20. -/
theorem clone_exported_canvas_node_not_shared :
    sampleEnv.is_exported 20 = true
      ∧ canvasBoundLayer.dynamic_param_list.find "x" = some (some 20)
      ∧ ∃ r G1, canvasBoundLayer.clone sampleEnv sampleGlobals 5 = some (some r, G1)
          ∧ r.dynamic_param_list.find "x" = some (some 2001)
          ∧ r.dynamic_param_list.find "x" ≠ some (some 20) := by
  refine ⟨rfl, by decide, _, _, rfl, by decide, by decide⟩

/-- C8 (amended). For every layer of a registered type whose bindings
`clone` can read, every token and every binding of a name `p` to an exported
node `n` that is not a node of canvas type evaluating at time 0 to an inline
canvas: `clone(t)` returns a layer that binds `p` to the same node `n`, and
so does every clone of that clone. -/
theorem clone_shares_exported (E : Env) (G : Globals) (L : Layer) (t : GUID) (p : String)
    (n : Nat)
    (hreg : (Layer.book G).count L.get_name ≠ 0)
    (hok : L.dynamic_param_list.entries.all (binding_readable E) = true)
    (hp : L.dynamic_param_list.find p = some (some n))
    (hexp : E.is_exported n = true)
    (hnc : ∀ c, E.get_type n = ValueType.TYPE_CANVAS →
      (E.value_at n 0).get_canvas = some c → E.is_inline c = false) :
    ∃ r G1, L.clone E G t = some (some r, G1)
      ∧ r.dynamic_param_list.find p = some (some n)
      ∧ ∀ r2 G2, r.clone E G1 t = some (some r2, G2) →
          r2.dynamic_param_list.find p = some (some n) := by
  obtain ⟨r, G1, hr⟩ := clone_returns E G L t hreg hok
  have h1 : r.dynamic_param_list_.find p = some (some n) :=
    clone_dynamic_shares E t L.dynamic_param_list_.entries _ r L.dynamic_param_list_.sorted
      (clone_some_inv E G L t r G1 hr) p n hp hexp hnc
  refine ⟨r, G1, hr, h1, ?_⟩
  intro r2 G2 hr2
  exact clone_dynamic_shares E t r.dynamic_param_list_.entries _ r2 r.dynamic_param_list_.sorted
    (clone_some_inv E G1 r t r2 G2 hr2) p n h1 hexp hnc

/-- C8 (amended) at the sample layer and its binding of "w" to the exported
node 10, with token 5. -/
theorem clone_shares_exported_witness :
    (Layer.book sampleGlobals).count boundLayer.get_name ≠ 0
      ∧ boundLayer.dynamic_param_list.entries.all (binding_readable sampleEnv) = true
      ∧ boundLayer.dynamic_param_list.find "w" = some (some 10)
      ∧ sampleEnv.is_exported 10 = true
      ∧ sampleEnv.get_type 10 ≠ ValueType.TYPE_CANVAS
      ∧ ∃ r G1, boundLayer.clone sampleEnv sampleGlobals 5 = some (some r, G1)
          ∧ r.dynamic_param_list.find "w" = some (some 10)
          ∧ ∀ r2 G2, r.clone sampleEnv G1 5 = some (some r2, G2) →
              r2.dynamic_param_list.find "w" = some (some 10) :=
  ⟨by decide, by decide, by decide, rfl, by decide,
    clone_shares_exported sampleEnv sampleGlobals boundLayer 5 "w" 10 (by decide) (by decide)
      (by decide) rfl (fun _ h => absurd h (by decide))⟩

/-- The sample layer, its clone and the clone of its clone all bind "w" to
the exported node 10. -/
theorem clone_twice_shares_sample :
    ∃ r G1 r2 G2, boundLayer.clone sampleEnv sampleGlobals 5 = some (some r, G1)
      ∧ r.clone sampleEnv G1 5 = some (some r2, G2)
      ∧ boundLayer.dynamic_param_list.find "w" = some (some 10)
      ∧ r.dynamic_param_list.find "w" = some (some 10)
      ∧ r2.dynamic_param_list.find "w" = some (some 10)
      ∧ r2.get_guid = boundLayer.get_guid := by
  refine ⟨_, _, _, _, rfl, rfl, by decide, by decide, by decide, by decide⟩

/-! ## Lemmas on the calls of `set_param` a clone receives -/

/-- C10. For every layer of a registered type whose bindings `clone` can
read, and every token `t`: `clone(t)` returns a layer whose identity is the
identity of the original combined with `t` (bitwise exclusive or), combining
that identity with `t` again gives the original identity back, and every
clone of the clone by the same token has the identity of the original. -/
theorem clone_guid_reversible (E : Env) (G : Globals) (L : Layer) (t : GUID)
    (hreg : (Layer.book G).count L.get_name ≠ 0)
    (hok : L.dynamic_param_list.entries.all (binding_readable E) = true) :
    ∃ r G1, L.clone E G t = some (some r, G1)
      ∧ r.get_guid = L.get_guid ^^^ t
      ∧ GUID.combine r.get_guid t = L.get_guid
      ∧ ∀ r2 G2, r.clone E G1 t = some (some r2, G2) → r2.get_guid = L.get_guid := by
  obtain ⟨r, G1, hr⟩ := clone_returns E G L t hreg hok
  have h1 : r.guid_ = GUID.combine L.guid_ t := by
    rw [(clone_dynamic_frame E t _ _ r (clone_some_inv E G L t r G1 hr)).1]
    exact clone_before_dynamic_guid E G L t
  have hback : GUID.combine (GUID.combine L.guid_ t) t = L.guid_ := by
    unfold GUID.combine
    exact Nat.xor_cancel_right t L.guid_
  refine ⟨r, G1, hr, h1, ?_, ?_⟩
  · show GUID.combine r.guid_ t = L.guid_
    rw [h1]
    exact hback
  · intro r2 G2 hr2
    show r2.guid_ = L.guid_
    rw [(clone_dynamic_frame E t _ _ r2 (clone_some_inv E G1 r t r2 G2 hr2)).1,
      clone_before_dynamic_guid E G1 r t, h1]
    exact hback

/-- C10 at the sample layer, whose identity is 6, with token 5. -/
theorem clone_guid_reversible_witness :
    (Layer.book sampleGlobals).count boundLayer.get_name ≠ 0
      ∧ boundLayer.dynamic_param_list.entries.all (binding_readable sampleEnv) = true
      ∧ boundLayer.get_guid = 6
      ∧ ∃ r G1, boundLayer.clone sampleEnv sampleGlobals 5 = some (some r, G1)
          ∧ r.get_guid = boundLayer.get_guid ^^^ 5
          ∧ GUID.combine r.get_guid 5 = boundLayer.get_guid
          ∧ ∀ r2 G2, r.clone sampleEnv G1 5 = some (some r2, G2) →
              r2.get_guid = boundLayer.get_guid :=
  ⟨by decide, by decide, rfl,
    clone_guid_reversible sampleEnv sampleGlobals boundLayer 5 (by decide) (by decide)⟩

/-! ## Lemmas for identities, depth and parameter lists -/

/-- A clone that was returned has the combined identity. -/
theorem clone_guid_of_some (E : Env) (G : Globals) (L : Layer) (t : GUID) (r : Layer)
    (G1 : Globals) (h : L.clone E G t = some (some r, G1)) :
    r.guid_ = GUID.combine L.guid_ t := by
  rw [(clone_dynamic_frame E t _ _ r (clone_some_inv E G L t r G1 h)).1]
  exact clone_before_dynamic_guid E G L t

theorem combine_right_injective (a b t : GUID)
    (h : GUID.combine a t = GUID.combine b t) : a = b := by
  unfold GUID.combine at h
  have h2 : (a ^^^ t) ^^^ t = (b ^^^ t) ^^^ t := by rw [h]
  rw [Nat.xor_cancel_right, Nat.xor_cancel_right] at h2
  exact h2

/-- What `get_z_depth` returns when "z_depth" has no entry and when it is
bound to a node. -/
theorem get_z_depth_spec (E : Env) (L : Layer) (t : Time) :
    (L.dynamic_param_list.find "z_depth" = none → L.get_z_depth E t = some L.z_depth_)
      ∧ (∀ n, L.dynamic_param_list.find "z_depth" = some (some n) →
          L.get_z_depth E t = some (E.value_at n t).get_real) := by
  constructor
  · intro h
    unfold Layer.get_z_depth StdMap.count
    simp [h]
  · intro n h
    unfold Layer.get_z_depth StdMap.count
    simp [h]

/-- The loop of `set_param_list`: every entry is passed to `set_param` on the
layer as the entries before it left it, and the flag stays true exactly when
it was true and every one of these calls returned true. -/
theorem set_param_list_fold_spec (es : List (String × ValueBase)) (b : Bool) (L : Layer) :
    (es.foldl
        (fun (acc : Bool × Layer) e =>
          let r := acc.2.set_param e.1 e.2
          (if !r.1 then false else acc.1, r.2))
        (b, L)).2
        = es.foldl (fun (acc : Layer) e => (acc.set_param e.1 e.2).2) L
      ∧ ((es.foldl
          (fun (acc : Bool × Layer) e =>
            let r := acc.2.set_param e.1 e.2
            (if !r.1 then false else acc.1, r.2))
          (b, L)).1 = true
        ↔ b = true ∧ ∀ pre e post, es = pre ++ e :: post →
            ((pre.foldl (fun (acc : Layer) e => (acc.set_param e.1 e.2).2) L).set_param
              e.1 e.2).1 = true) := by
  induction es generalizing b L with
  | nil =>
    refine ⟨rfl, ?_⟩
    simp
  | cons e0 rest ih =>
    simp only [List.foldl_cons]
    obtain ⟨ih1, ih2⟩ := ih (if !(L.set_param e0.1 e0.2).1 then false else b) (L.set_param e0.1 e0.2).2
    refine ⟨ih1, ?_⟩
    rw [ih2]
    constructor
    · rintro ⟨hb, hall⟩
      have h0 : (L.set_param e0.1 e0.2).1 = true := by
        by_cases h : (L.set_param e0.1 e0.2).1 = true
        · exact h
        · simp [h] at hb
      have hb' : b = true := by simpa [h0] using hb
      refine ⟨hb', ?_⟩
      intro pre e post hsplit
      cases pre with
      | nil =>
        simp only [List.nil_append, List.cons.injEq] at hsplit
        obtain ⟨he, -⟩ := hsplit
        subst he
        exact h0
      | cons e1 pre1 =>
        simp only [List.cons_append, List.cons.injEq] at hsplit
        obtain ⟨he, hrest⟩ := hsplit
        subst he
        simp only [List.foldl_cons]
        exact hall pre1 e post hrest
    · rintro ⟨hb, hall⟩
      have h0 : (L.set_param e0.1 e0.2).1 = true := hall [] e0 rest rfl
      refine ⟨by simp [h0, hb], ?_⟩
      intro pre e post hsplit
      have := hall (e0 :: pre) e post (by rw [hsplit]; rfl)
      simpa only [List.foldl_cons] using this

/-! ## The claims, continued -/

/-- C11. For every two layers of registered types whose bindings `clone` can
read and whose identities differ, and every token `t`: both clones are
returned, each has the identity of its original combined with `t`, and the
two identities differ. -/
theorem clone_guid_injective (E : Env) (G G' : Globals) (L1 L2 : Layer) (t : GUID)
    (hreg1 : (Layer.book G).count L1.get_name ≠ 0)
    (hok1 : L1.dynamic_param_list.entries.all (binding_readable E) = true)
    (hreg2 : (Layer.book G').count L2.get_name ≠ 0)
    (hok2 : L2.dynamic_param_list.entries.all (binding_readable E) = true)
    (hne : L1.get_guid ≠ L2.get_guid) :
    ∃ r1 H1 r2 H2, L1.clone E G t = some (some r1, H1)
      ∧ L2.clone E G' t = some (some r2, H2)
      ∧ r1.get_guid = L1.get_guid ^^^ t
      ∧ r2.get_guid = L2.get_guid ^^^ t
      ∧ r1.get_guid ≠ r2.get_guid := by
  obtain ⟨r1, H1, h1⟩ := clone_returns E G L1 t hreg1 hok1
  obtain ⟨r2, H2, h2⟩ := clone_returns E G' L2 t hreg2 hok2
  have g1 : r1.guid_ = GUID.combine L1.guid_ t := clone_guid_of_some E G L1 t r1 H1 h1
  have g2 : r2.guid_ = GUID.combine L2.guid_ t := clone_guid_of_some E G' L2 t r2 H2 h2
  refine ⟨r1, H1, r2, H2, h1, h2, g1, g2, ?_⟩
  intro heq
  apply hne
  show L1.guid_ = L2.guid_
  apply combine_right_injective L1.guid_ L2.guid_ t
  rw [← g1, ← g2]
  exact heq

/-- C11 at the sample layer (identity 6) and the same layer with identity 9,
with token 5. -/
theorem clone_guid_injective_witness :
    boundLayer.get_guid ≠ ({ boundLayer with guid_ := 9 } : Layer).get_guid
      ∧ ∃ r1 H1 r2 H2, boundLayer.clone sampleEnv sampleGlobals 5 = some (some r1, H1)
          ∧ ({ boundLayer with guid_ := 9 } : Layer).clone sampleEnv sampleGlobals 5
              = some (some r2, H2)
          ∧ r1.get_guid = boundLayer.get_guid ^^^ 5
          ∧ r2.get_guid = ({ boundLayer with guid_ := 9 } : Layer).get_guid ^^^ 5
          ∧ r1.get_guid ≠ r2.get_guid :=
  ⟨by decide,
    clone_guid_injective sampleEnv sampleGlobals sampleGlobals boundLayer
      { boundLayer with guid_ := 9 } 5 (by decide) (by decide) (by decide) (by decide)
      (by decide)⟩

/-- C12 (the code departs from the claim). A fresh layer has no "z_depth"
entry and `get_z_depth` returns its static field. After
`disconnect_dynamic_param("z_depth")`, a state reached from the fresh layer,
the map has an entry under "z_depth" with an empty handle (the defect of
C3); `get_z_depth` sees `count("z_depth")` at 1 and dereferences the empty
handle instead of returning the static field. -/
theorem get_z_depth_faults_after_disconnect :
    Layer.new.get_z_depth sampleEnv 0 = some Layer.new.z_depth_
      ∧ Reachable sampleEnv (Layer.new.disconnect_dynamic_param "z_depth").2
      ∧ (Layer.new.disconnect_dynamic_param "z_depth").2.dynamic_param_list.count "z_depth" = 1
      ∧ (Layer.new.disconnect_dynamic_param "z_depth").2.dynamic_param_list.find "z_depth"
          = some none
      ∧ (Layer.new.disconnect_dynamic_param "z_depth").2.get_z_depth sampleEnv 0 = none :=
  ⟨by decide, Reachable.disconnect _ _ Reachable.fresh, by decide, by decide, by decide⟩

/-- C13. For every layer and parameter list, `set_param_list` passes every
entry, in order, to `set_param`, whatever the earlier calls returned; it
returns true exactly when the list is not empty and each of these calls
returned true; on an empty list it returns false and leaves the layer as it
was. -/
theorem set_param_list_spec (L : Layer) (list : ParamList) :
    (L.set_param_list list).2
        = list.entries.foldl (fun (acc : Layer) e => (acc.set_param e.1 e.2).2) L
      ∧ ((L.set_param_list list).1 = true
        ↔ list.entries ≠ [] ∧ ∀ pre e post, list.entries = pre ++ e :: post →
            ((pre.foldl (fun (acc : Layer) e => (acc.set_param e.1 e.2).2) L).set_param
              e.1 e.2).1 = true)
      ∧ (list.entries = [] → L.set_param_list list = (false, L)) := by
  unfold Layer.set_param_list
  by_cases hlen : list.entries.length = 0
  · have hnil : list.entries = [] := List.length_eq_zero.1 hlen
    rw [if_pos hlen]
    refine ⟨by rw [hnil]; rfl, ?_, fun _ => rfl⟩
    simp [hnil]
  · have hne : list.entries ≠ [] := fun h => hlen (by rw [h]; rfl)
    rw [if_neg hlen]
    obtain ⟨h1, h2⟩ := set_param_list_fold_spec list.entries true L
    refine ⟨h1, ?_, fun h => absurd h hne⟩
    rw [h2]
    simp [hne]

/-- C13, a scenario: in the list with "a" and "z_depth", the entry "a" is
rejected first; "z_depth" is still applied, and the call returns false. -/
theorem set_param_list_scenario :
    (Layer.new.set_param "a" (ValueBase.real 1)).1 = false
      ∧ (Layer.new.set_param_list
          ((StdMap.empty.insert "z_depth" (ValueBase.real 5)).insert "a" (ValueBase.real 1))).1
          = false
      ∧ (Layer.new.set_param_list
          ((StdMap.empty.insert "z_depth" (ValueBase.real 5)).insert "a" (ValueBase.real 1))).2.z_depth_
          = 5
      ∧ (Layer.new.set_param_list
          (StdMap.empty.insert "z_depth" (ValueBase.real 5))).1 = true
      ∧ Layer.new.set_param_list StdMap.empty = (false, Layer.new) := by
  decide

/-! ## Lemmas for time points and the parent canvas -/

/-- The loop of `get_times_vfunc` on entries without empty handle: it ends,
and a time is in the set afterwards exactly when it was there before or a
node of the entries reports it. -/
theorem insert_times_spec (E : Env) (es : List (String × Option Nat)) (S : Finset Time)
    (hnn : ∀ e ∈ es, e.2 ≠ none) :
    ∃ S', Layer.insert_times E es S = some S'
      ∧ ∀ x, x ∈ S' ↔ x ∈ S ∨ ∃ p n, (p, some n) ∈ es ∧ x ∈ E.get_times n := by
  induction es generalizing S with
  | nil => exact ⟨S, rfl, fun x => by simp⟩
  | cons e rest ih =>
    obtain ⟨k, v⟩ := e
    have hv : v ≠ none := hnn (k, v) (List.mem_cons_self _ _)
    obtain ⟨n, rfl⟩ := Option.ne_none_iff_exists'.1 hv
    obtain ⟨S', hS', hmem⟩ :=
      ih (S ∪ (E.get_times n).toFinset) (fun e he => hnn e (List.mem_cons_of_mem _ he))
    refine ⟨S', ?_, ?_⟩
    · simp only [Layer.insert_times]
      exact hS'
    · intro x
      rw [hmem x]
      constructor
      · rintro (hx | ⟨p, m, hpm, hx⟩)
        · rcases Finset.mem_union.1 hx with hx | hx
          · exact Or.inl hx
          · exact Or.inr ⟨k, n, List.mem_cons_self _ _, List.mem_toFinset.1 hx⟩
        · exact Or.inr ⟨p, m, List.mem_cons_of_mem _ hpm, hx⟩
      · rintro (hx | ⟨p, m, hpm, hx⟩)
        · exact Or.inl (Finset.mem_union_left _ hx)
        · rcases List.mem_cons.1 hpm with heq | hin
          · simp only [Prod.mk.injEq, Option.some.injEq] at heq
            obtain ⟨-, hmn⟩ := heq
            subst hmn
            exact Or.inl (Finset.mem_union_right _ (List.mem_toFinset.2 hx))
          · exact Or.inr ⟨p, m, hin, hx⟩

/-! ## The claims: bounding rectangle, time points, parent canvas -/

/-- C14. For every layer and every context below it: an inactive layer
returns the full bounding rectangle of the context unchanged, an active one
returns its union with the layer's own bounding rectangle; so in a chain of
three layers whose top layer is inactive the result at the top is the result
computed from the second layer on. -/
theorem get_full_bounding_rect_spec (R : RectOps) (L : Layer) (c : Context) :
    (L.active = false → L.get_full_bounding_rect R c = Context.get_full_bounding_rect R c)
      ∧ (L.active = true →
          L.get_full_bounding_rect R c
            = R.union (Context.get_full_bounding_rect R c) (L.get_bounding_rect R))
      ∧ (∀ second third : Layer, L.active = false →
          L.get_full_bounding_rect R [second, third]
              = Context.get_full_bounding_rect R [second, third]
            ∧ Context.get_full_bounding_rect R [second, third]
              = second.get_full_bounding_rect R [third]) := by
  refine ⟨?_, ?_, ?_⟩
  · intro h
    unfold Layer.get_full_bounding_rect
    simp [h]
  · intro h
    unfold Layer.get_full_bounding_rect
    simp [h]
  · intro second third h
    refine ⟨?_, rfl⟩
    unfold Layer.get_full_bounding_rect
    simp [h]

/-- C14, a scenario: the sample layer is inactive; on top of an active and an
inactive layer it returns what the chain gives from the second layer on, the
full plane. -/
theorem get_full_bounding_rect_scenario :
    sampleLayer.active = false
      ∧ sampleLayer.get_full_bounding_rect sampleRectOps [Layer.new, sampleLayer]
          = Layer.new.get_full_bounding_rect sampleRectOps [sampleLayer]
      ∧ Layer.new.get_full_bounding_rect sampleRectOps [sampleLayer]
          = sampleRectOps.full_plane
      ∧ sampleLayer.get_full_bounding_rect sampleRectOps [sampleLayer, sampleLayer]
          = sampleRectOps.zero := by
  decide

/-- C15. For every layer whose bindings are all non-empty and every set of
times, `get_times_vfunc` ends and a time is in the set afterwards if and
only if it was in the set before or is reported by the node of some binding
of the layer. -/
theorem get_times_vfunc_union (E : Env) (L : Layer) (S : Finset Time)
    (hnn : ∀ e ∈ L.dynamic_param_list.entries, e.2 ≠ none) :
    ∃ S', L.get_times_vfunc E S = some S'
      ∧ ∀ x, x ∈ S' ↔
          x ∈ S ∨ ∃ p n, L.dynamic_param_list.find p = some (some n) ∧ x ∈ E.get_times n := by
  obtain ⟨S', hS', hmem⟩ := insert_times_spec E L.dynamic_param_list_.entries S hnn
  refine ⟨S', hS', ?_⟩
  intro x
  rw [hmem x]
  constructor
  · rintro (hx | ⟨p, n, hpn, hx⟩)
    · exact Or.inl hx
    · exact Or.inr ⟨p, n, (StdMap.mem_iff_find _ p (some n)).1 hpn, hx⟩
  · rintro (hx | ⟨p, n, hpn, hx⟩)
    · exact Or.inl hx
    · exact Or.inr ⟨p, n, (StdMap.mem_iff_find _ p (some n)).2 hpn, hx⟩

/-- C15 at the sample layer, whose nodes 1 (bound twice) and 10 report the
times 1, 2 and 10, 20, with the set holding 100 before the call. -/
theorem get_times_vfunc_union_witness :
    (∀ e ∈ boundLayer.dynamic_param_list.entries, e.2 ≠ none)
      ∧ ∃ S', boundLayer.get_times_vfunc timedEnv {100} = some S'
          ∧ ∀ x, x ∈ S' ↔
              x ∈ ({100} : Finset Time)
                ∨ ∃ p n, boundLayer.dynamic_param_list.find p = some (some n)
                    ∧ x ∈ timedEnv.get_times n :=
  ⟨by decide, get_times_vfunc_union timedEnv boundLayer {100} (by decide)⟩

/-- C16. For every layer, name `p` and node `n` that `p` is not already bound
to: `connect_dynamic_param(p, n)` returns true and leaves `p` bound to `n`;
among the calls it makes, `set_parent_canvas` is called only on `n` with the
canvas of the layer, and it is called exactly when `n` is not exported and
the layer has a canvas. -/
theorem connect_sets_parent_canvas (E : Env) (L : Layer) (p : String) (n : Nat)
    (hnew : L.dynamic_param_list.find p ≠ some (some n)) :
    ∃ L' evs, L.connect_dynamic_param E p (some n) = some (true, L')
      ∧ L'.dynamic_param_list.find p = some (some n)
      ∧ L'.log = L.log ++ evs
      ∧ ∀ m c, Event.set_parent_canvas m c ∈ evs ↔
          (m = n ∧ c = L.get_canvas ∧ E.is_exported n = false ∧ L.get_canvas ≠ none) := by
  have hnew' : ¬ L.dynamic_param_list_.find p = some (some n) := hnew
  have hcond : (!E.is_exported n && (L.canvas_).isSome) = true
      ↔ (E.is_exported n = false ∧ ¬ L.canvas_ = none) := by
    simp [Option.isSome_iff_ne_none]
  unfold Layer.connect_dynamic_param StdMap.index
  cases hf : L.dynamic_param_list_.find p with
  | none =>
    by_cases hc : (!E.is_exported n && (L.canvas_).isSome) = true
    · have hc' := hcond.1 hc
      simp [hc, Layer.changed, Layer.on_changed, Layer.node_on_changed, Layer.add_child,
          Layer.set_parent_canvas, Layer.get_canvas, Layer.dynamic_param_list,
          StdMap.find_insert]
      exact hc'
    · have hc' : ¬ (E.is_exported n = false ∧ ¬ L.canvas_ = none) := fun h => hc (hcond.2 h)
      simp [hc, Layer.changed, Layer.on_changed, Layer.node_on_changed, Layer.add_child,
          Layer.set_parent_canvas, Layer.get_canvas, Layer.dynamic_param_list,
          StdMap.find_insert]
      intro h
      by_contra h2
      exact hc' ⟨h, h2⟩
  | some v =>
    have hv : ¬ v = some n := fun e => hnew' (by rw [hf, e])
    cases v with
    | none =>
      by_cases hc : (!E.is_exported n && (L.canvas_).isSome) = true
      · have hc' := hcond.1 hc
        simp [hc, Layer.changed, Layer.on_changed, Layer.node_on_changed, Layer.add_child,
            Layer.set_parent_canvas, Layer.get_canvas, Layer.dynamic_param_list,
            StdMap.find_insert]
        exact hc'
      · have hc' : ¬ (E.is_exported n = false ∧ ¬ L.canvas_ = none) := fun h => hc (hcond.2 h)
        simp [hc, Layer.changed, Layer.on_changed, Layer.node_on_changed, Layer.add_child,
            Layer.set_parent_canvas, Layer.get_canvas, Layer.dynamic_param_list,
            StdMap.find_insert]
        intro h
        by_contra h2
        exact hc' ⟨h, h2⟩
    | some m0 =>
      have hm : ¬ m0 = n := fun e => hv (by rw [e])
      by_cases hc : (!E.is_exported n && (L.canvas_).isSome) = true
      · have hc' := hcond.1 hc
        simp [hc, hm, Layer.changed, Layer.on_changed, Layer.node_on_changed, Layer.add_child,
            Layer.remove_child, Layer.set_parent_canvas, Layer.get_canvas,
            Layer.dynamic_param_list, StdMap.find_insert]
        exact hc'
      · have hc' : ¬ (E.is_exported n = false ∧ ¬ L.canvas_ = none) := fun h => hc (hcond.2 h)
        simp [hc, hm, Layer.changed, Layer.on_changed, Layer.node_on_changed, Layer.add_child,
            Layer.remove_child, Layer.set_parent_canvas, Layer.get_canvas,
            Layer.dynamic_param_list, StdMap.find_insert]
        intro h
        by_contra h2
        exact hc' ⟨h, h2⟩

/-- C16 at the sample layer attached to canvas 7: connecting "v" to node 2,
which is not exported, calls `set_parent_canvas` on node 2 with canvas 7;
connecting "v" to the exported node 11 does not. -/
theorem connect_sets_parent_canvas_witness :
    attachedLayer.dynamic_param_list.find "v" ≠ some (some 2)
      ∧ attachedLayer.get_canvas = some 7
      ∧ sampleEnv.is_exported 2 = false
      ∧ sampleEnv.is_exported 11 = true
      ∧ (∃ L' evs, attachedLayer.connect_dynamic_param sampleEnv "v" (some 2) = some (true, L')
          ∧ L'.dynamic_param_list.find "v" = some (some 2)
          ∧ L'.log = attachedLayer.log ++ evs
          ∧ ∀ m c, Event.set_parent_canvas m c ∈ evs ↔
              (m = 2 ∧ c = attachedLayer.get_canvas ∧ sampleEnv.is_exported 2 = false
                ∧ attachedLayer.get_canvas ≠ none))
      ∧ (attachedLayer.connect_dynamic_param sampleEnv "v" (some 2)).map (fun r => r.2.log)
          = some (attachedLayer.log
              ++ [Event.add_child 2, Event.set_parent_canvas 2 (some 7), Event.signal_changed])
      ∧ (attachedLayer.connect_dynamic_param sampleEnv "v" (some 11)).map (fun r => r.2.log)
          = some (attachedLayer.log ++ [Event.add_child 11, Event.signal_changed]) :=
  ⟨by decide, by decide, rfl, rfl,
    connect_sets_parent_canvas sampleEnv attachedLayer "v" 2 (by decide), by decide, by decide⟩

/-! ## Lemmas for the destructor -/

/-- Erasing the first key of a sorted entry list leaves the rest. -/
theorem rawErase_head {V : Type} (k : String) (v : V) (rest : List (String × V))
    (h : KeysSorted ((k, v) :: rest)) : rawErase k ((k, v) :: rest) = rest := by
  have hs : ∀ x ∈ rest.map Prod.fst, keyLt k x := by
    have := h
    simp only [KeysSorted, List.map_cons, List.pairwise_cons] at this
    exact this.1
  unfold rawErase
  rw [List.filter_cons]
  simp only [bne_self_eq_false, Bool.false_eq_true, if_false]
  apply List.filter_eq_self.2
  rintro ⟨k', v'⟩ hmem
  have hk : keyLt k k' := hs k' (List.mem_map.2 ⟨(k', v'), hmem, rfl⟩)
  have hne : k' ≠ k := fun e => keyLt_irrefl k (by rw [e] at hk; exact hk)
  simpa using hne

/-- The loop of the destructor on bindings without empty handle: it ends
with an empty map, has called `remove_child` once for each entry in key
order, has removed the edges to the nodes of the entries, and has touched
neither the group nor the connection to the canvas. -/
theorem release_bindings_spec (es : List (String × Option Nat)) (L : Layer)
    (hent : L.dynamic_param_list_.entries = es) (hnn : ∀ e ∈ es, e.2 ≠ none) :
    ∃ L1, Layer.release_bindings L es = some L1
      ∧ L1.dynamic_param_list_.entries = []
      ∧ L1.log = L.log ++ es.filterMap (fun e => e.2.map Event.remove_child)
      ∧ (∀ c, c ∈ L1.children ↔ c ∈ L.children ∧ ∀ e ∈ es, e.2 ≠ some c)
      ∧ L1.group_ = L.group_
      ∧ L1.parent_death_connect_ = L.parent_death_connect_
      ∧ L1.canvas_ = L.canvas_ := by
  induction es generalizing L with
  | nil =>
    refine ⟨L, rfl, hent, by simp, ?_, rfl, rfl, rfl⟩
    intro c
    simp
  | cons e rest ih =>
    obtain ⟨k, v⟩ := e
    have hv : v ≠ none := hnn (k, v) (List.mem_cons_self _ _)
    obtain ⟨n, rfl⟩ := Option.ne_none_iff_exists'.1 hv
    have hsorted : KeysSorted ((k, some n) :: rest) := by
      rw [← hent]
      exact L.dynamic_param_list_.sorted
    have hent' : ({ (L.remove_child n) with
        dynamic_param_list_ := (L.remove_child n).dynamic_param_list_.erase k } : Layer
        ).dynamic_param_list_.entries = rest := by
      show rawErase k L.dynamic_param_list_.entries = rest
      rw [hent]
      exact rawErase_head k (some n) rest hsorted
    obtain ⟨L1, hr, hempty, hlog, hch, hg, hp, hc⟩ :=
      ih _ hent' (fun e he => hnn e (List.mem_cons_of_mem _ he))
    refine ⟨L1, ?_, hempty, ?_, ?_, hg, hp, hc⟩
    · simp only [Layer.release_bindings]
      exact hr
    · rw [hlog]
      simp [Layer.remove_child]
    · intro c
      rw [hch c]
      simp only [Layer.remove_child, List.mem_filter, bne_iff_ne, ne_eq, List.mem_cons,
        forall_eq_or_imp, Option.some.injEq]
      constructor
      · rintro ⟨⟨h1, h2⟩, h3⟩
        exact ⟨h1, ⟨fun e => h2 e.symm, h3⟩⟩
      · rintro ⟨h1, h2, h3⟩
        exact ⟨⟨h1, fun e => h2 e.symm⟩, h3⟩

/-! ## The claims: destruction, empty canvas handles, groups -/

/-- C17. For every layer whose bindings are all non-empty, the destructor
runs to its end in this order. First the loop over the bindings: it calls
`remove_child` for the node of each binding and leaves the map empty and no
edge to a node that was bound, with the group and the connection to the
canvas still as they were. Then the group is cleared, with the
removed-from-group signal exactly when the group was not empty. Only then
the connection to the canvas is disconnected, and `begin_delete` runs last. -/
theorem destructor_order (G : Globals) (L : Layer)
    (hnn : ∀ e ∈ L.dynamic_param_list.entries, e.2 ≠ none) :
    ∃ L1 L', Layer.release_bindings L L.dynamic_param_list.entries = some L1
      ∧ L1.dynamic_param_list.entries = []
      ∧ (∀ c, c ∈ L1.children ↔
          c ∈ L.children ∧ ∀ p, L.dynamic_param_list.find p ≠ some (some c))
      ∧ L1.log = L.log
          ++ L.dynamic_param_list.entries.filterMap (fun e => e.2.map Event.remove_child)
      ∧ L1.get_group = L.get_group
      ∧ L1.parent_death_connect_ = L.parent_death_connect_
      ∧ L.destructor G = some (L', { G with counter := G.counter - 1 })
      ∧ L'.log = L1.log
          ++ (if L.get_group = "" then [] else [Event.signal_removed_from_group L.get_group])
          ++ [Event.parent_death_disconnect, Event.begin_delete]
      ∧ L'.get_group = ""
      ∧ L'.parent_death_connect_ = false
      ∧ L'.dynamic_param_list = L1.dynamic_param_list
      ∧ L'.children = L1.children := by
  obtain ⟨L1, hr, hempty, hlog, hch, hg, hp, -⟩ :=
    release_bindings_spec L.dynamic_param_list_.entries L rfl hnn
  have hr' : Layer.release_bindings L L.dynamic_param_list_.entries = some L1 := hr
  refine ⟨L1,
    { L1.remove_from_all_groups with
      parent_death_connect_ := false,
      log := L1.remove_from_all_groups.log ++ [Event.parent_death_disconnect]
        ++ [Event.begin_delete] },
    hr, hempty, ?_, hlog, hg, hp, ?_, ?_, ?_, ?_, ?_, ?_⟩
  · intro c
    rw [hch c]
    constructor
    · rintro ⟨h1, h2⟩
      refine ⟨h1, fun p hp => ?_⟩
      exact h2 (p, some c) ((StdMap.mem_iff_find _ p (some c)).2 hp) rfl
    · rintro ⟨h1, h2⟩
      refine ⟨h1, ?_⟩
      rintro ⟨p, v⟩ he hv
      simp only at hv
      subst hv
      exact h2 p ((StdMap.mem_iff_find _ p (some c)).1 he)
  · unfold Layer.destructor
    rw [hr']
  · simp only [Layer.get_group]
    unfold Layer.remove_from_all_groups
    rw [hg]
    by_cases hgrp : L.group_ = ""
    · simp [hgrp]
    · simp [hgrp]
  · simp only [Layer.get_group]
    unfold Layer.remove_from_all_groups
    by_cases hgrp : L1.group_ = ""
    · simp [hgrp]
    · simp [hgrp]
  · rfl
  · simp only [Layer.dynamic_param_list]
    unfold Layer.remove_from_all_groups
    by_cases hgrp : L1.group_ = ""
    · simp [hgrp]
    · simp [hgrp]
  · unfold Layer.remove_from_all_groups
    by_cases hgrp : L1.group_ = ""
    · simp [hgrp]
    · simp [hgrp]

/-- C17 at the sample layer attached to canvas 7, in group "g", with "w"
bound to node 10 and "x" and "y" to node 1. -/
theorem destructor_order_witness :
    (∀ e ∈ attachedLayer.dynamic_param_list.entries, e.2 ≠ none)
      ∧ attachedLayer.get_group = "g"
      ∧ attachedLayer.parent_death_connect_ = true
      ∧ (attachedLayer.destructor sampleGlobals).map (fun r => r.1.log)
          = some (attachedLayer.log
              ++ [Event.remove_child 10, Event.remove_child 1, Event.remove_child 1,
                  Event.signal_removed_from_group "g",
                  Event.parent_death_disconnect, Event.begin_delete])
      ∧ ∃ L1 L', Layer.release_bindings attachedLayer attachedLayer.dynamic_param_list.entries
            = some L1
          ∧ L1.dynamic_param_list.entries = []
          ∧ (∀ c, c ∈ L1.children ↔
              c ∈ attachedLayer.children
                ∧ ∀ p, attachedLayer.dynamic_param_list.find p ≠ some (some c))
          ∧ L1.log = attachedLayer.log
              ++ attachedLayer.dynamic_param_list.entries.filterMap
                  (fun e => e.2.map Event.remove_child)
          ∧ L1.get_group = attachedLayer.get_group
          ∧ L1.parent_death_connect_ = attachedLayer.parent_death_connect_
          ∧ attachedLayer.destructor sampleGlobals
              = some (L', { sampleGlobals with counter := sampleGlobals.counter - 1 })
          ∧ L'.log = L1.log
              ++ (if attachedLayer.get_group = "" then []
                  else [Event.signal_removed_from_group attachedLayer.get_group])
              ++ [Event.parent_death_disconnect, Event.begin_delete]
          ∧ L'.get_group = ""
          ∧ L'.parent_death_connect_ = false
          ∧ L'.dynamic_param_list = L1.dynamic_param_list
          ∧ L'.children = L1.children :=
  ⟨by decide, by decide, by decide, by decide,
    destructor_order sampleGlobals attachedLayer (by decide)⟩

/-- C18 (the code departs from the claim). The sample layer binds "x" to
node 21, a node of canvas type whose value at time 0 is an empty canvas
handle. The second loop of `clone` calls `canvas->is_inline()` on that empty
handle, so no clone is returned; the same layer with the empty handle in a
static parameter is cloned, because the first loop tests `canvas &&` first. -/
theorem clone_faults_on_empty_canvas_binding :
    (Layer.book sampleGlobals).count emptyCanvasBoundLayer.get_name = 1
      ∧ emptyCanvasBoundLayer.dynamic_param_list.find "x" = some (some 21)
      ∧ sampleEnv.get_type 21 = ValueType.TYPE_CANVAS
      ∧ (sampleEnv.value_at 21 0).get_canvas = none
      ∧ emptyCanvasBoundLayer.clone sampleEnv sampleGlobals 5 = none
      ∧ emptyCanvasStaticLayer.get_param_list.find "canvas" = some (ValueBase.canvas none)
      ∧ ∃ r G1, emptyCanvasStaticLayer.clone sampleEnv sampleGlobals 5 = some (some r, G1) := by
  refine ⟨by decide, by decide, rfl, rfl, rfl, by decide, _, _, rfl⟩

/-- C19. For every layer and string `x`: `add_to_group(x)` changes nothing
when `x` is the group of the layer; otherwise it fires removed-from-group
with the old group exactly when that group is not empty, then sets the group
to `x` and fires added-to-group with `x`. `remove_from_group(x)` changes the
layer only when `x` is its group and that group is not empty; it then fires
removed-from-group with that group once and leaves the group empty. -/
theorem group_state_machine (L : Layer) (x : String) :
    (x = L.get_group → L.add_to_group x = L)
      ∧ (x ≠ L.get_group →
          L.add_to_group x
            = { L with
                group_ := x,
                log := L.log
                  ++ (if L.get_group = "" then []
                      else [Event.signal_removed_from_group L.get_group])
                  ++ [Event.signal_added_to_group x] })
      ∧ (L.add_to_group x).get_group = x
      ∧ (x = L.get_group ∧ L.get_group ≠ "" →
          L.remove_from_group x
            = { L with
                group_ := "",
                log := L.log ++ [Event.signal_removed_from_group L.get_group] })
      ∧ (¬ (x = L.get_group ∧ L.get_group ≠ "") → L.remove_from_group x = L) := by
  refine ⟨?_, ?_, ?_, ?_, ?_⟩
  · intro h
    unfold Layer.add_to_group
    simp [Layer.get_group] at h
    simp [h]
  · intro h
    have h' : ¬ x = L.group_ := h
    unfold Layer.add_to_group Layer.remove_from_all_groups
    by_cases hg : L.group_ = ""
    · have hx : ¬ x = "" := fun e => h' (e.trans hg.symm)
      simp [hx, hg, Layer.get_group]
    · simp [h', hg, Layer.get_group]
  · unfold Layer.add_to_group Layer.remove_from_all_groups
    by_cases h : x = L.group_
    · simp [h, Layer.get_group]
    · by_cases hg : L.group_ = ""
      · have hx : ¬ x = "" := fun e => h (e.trans hg.symm)
        simp [hx, hg, Layer.get_group]
      · simp [h, hg, Layer.get_group]
  · rintro ⟨h1, h2⟩
    have h1' : L.group_ = x := h1.symm
    have h2' : ¬ L.group_ = "" := h2
    have hx : ¬ x = "" := fun e => h2' (h1'.trans e)
    unfold Layer.remove_from_group Layer.remove_from_all_groups
    simp [h1', hx, Layer.get_group]
  · intro h
    unfold Layer.remove_from_group Layer.remove_from_all_groups
    by_cases hg : L.group_ = ""
    · simp [hg]
    · have h1 : ¬ L.group_ = x := fun e => h ⟨e.symm, hg⟩
      simp [h1]

/-- C19, a scenario: the sample layer is in group "g"; adding it to "h"
fires removed-from-group "g" and then added-to-group "h"; removing it from
"g" afterwards changes nothing, removing it from "h" fires
removed-from-group "h" and leaves it in no group. -/
theorem group_scenario :
    sampleLayer.get_group = "g"
      ∧ sampleLayer.add_to_group "g" = sampleLayer
      ∧ (sampleLayer.add_to_group "h").get_group = "h"
      ∧ (sampleLayer.add_to_group "h").log
          = [Event.signal_removed_from_group "g", Event.signal_added_to_group "h"]
      ∧ (sampleLayer.add_to_group "h").remove_from_group "g" = sampleLayer.add_to_group "h"
      ∧ ((sampleLayer.add_to_group "h").remove_from_group "h").get_group = ""
      ∧ ((sampleLayer.add_to_group "h").remove_from_group "h").log
          = [Event.signal_removed_from_group "g", Event.signal_added_to_group "h",
             Event.signal_removed_from_group "h"]
      ∧ (Layer.new.add_to_group "h").log = [Event.signal_added_to_group "h"] := by
  decide

end Synfig
